import Mathlib

set_option maxRecDepth 8000

/-!
Verification of the rollgate Python SDK (packages/sdk-python/rollgate) against
its natural-language specification.

Each Python module the claims touch is shallowly embedded as executable Lean
definitions:
  * `evaluate.py`   — flag rules, user contexts, condition matching, the
                      SHA-256 consistent-hash rollout and `evaluate_flag`;
  * `circuit_breaker.py` — the three-state circuit breaker as a pure state
                      machine over explicit timestamps;
  * `cache.py`      — the stale-while-revalidate flag cache and its
                      persistence snapshot;
  * `dedup.py`      — the single-flight request deduplicator as a small
                      event-step machine;
  * `client.py`     — the fetch orchestrator (`_fetch_flags`,
                      `_update_flags`, `_use_cached_fallback`, `refresh`).

Machine integers are modelled as `Nat`/`Int` with explicit `% 2^32` where the
Python code relies on fixed-width arithmetic (only inside SHA-256); wall-clock
instants are exact integers (seconds or milliseconds, following each module's
own unit; every comparison the code makes is at that granularity).  Python exceptions are modelled as `Except`/explicit outcome data.
Event emission to callbacks is modelled as returned event lists; the source
swallows callback errors, so callbacks never influence the states we model.
-/

namespace Rollgate

/-! ## SHA-256 (embedding of Python's `hashlib.sha256` as used by
`evaluate._is_in_rollout`)

The code hashes the UTF-8 bytes of `"{flagKey}:{userId}"` and reads the first
4 bytes of the digest.  We embed SHA-256 (FIPS 180-4) over byte lists, with
32-bit words represented as `Nat` reduced mod `2^32`. -/

/-- Truncate a natural number to a 32-bit word. -/
def w32 (n : Nat) : Nat := n % 4294967296

/-- Right rotation of a 32-bit word by `k` bits. -/
def rotr (k x : Nat) : Nat :=
  w32 (Nat.lor (Nat.shiftRight x k) (Nat.shiftLeft x (32 - k)))

/-- Bitwise complement of a 32-bit word. -/
def not32 (x : Nat) : Nat := 4294967295 - x

/-- The SHA-256 round constants K (FIPS 180-4, §4.2.2: the first 32 bits of
the fractional parts of the cube roots of the first 64 primes), written in
decimal. -/
def sha256K : List Nat :=
  [1116352408, 1899447441, 3049323471, 3921009573, 961987163, 1508970993,
   2453635748, 2870763221, 3624381080, 310598401, 607225278, 1426881987,
   1925078388, 2162078206, 2614888103, 3248222580, 3835390401, 4022224774,
   264347078, 604807628, 770255983, 1249150122, 1555081692, 1996064986,
   2554220882, 2821834349, 2952996808, 3210313671, 3336571891, 3584528711,
   113926993, 338241895, 666307205, 773529912, 1294757372, 1396182291,
   1695183700, 1986661051, 2177026350, 2456956037, 2730485921, 2820302411,
   3259730800, 3345764771, 3516065817, 3600352804, 4094571909, 275423344,
   430227734, 506948616, 659060556, 883997877, 958139571, 1322822218,
   1537002063, 1747873779, 1955562222, 2024104815, 2227730452, 2361852424,
   2428436474, 2756734187, 3204031479, 3329325298]

/-- The SHA-256 initial hash value (FIPS 180-4, §5.3.3), in decimal. -/
def sha256H0 : List Nat :=
  [1779033703, 3144134277, 1013904242, 2773480762,
   1359893119, 2600822924, 528734635, 1541459225]

/-- Big-endian interpretation of a byte list, the embedding of Python's
`int.from_bytes(bytes, byteorder="big")`. -/
def intFromBytesBE (l : List Nat) : Nat :=
  l.foldl (fun acc b => acc * 256 + b) 0

/-- The four big-endian bytes of a 32-bit word. -/
def be32 (x : Nat) : List Nat :=
  [x / 16777216 % 256, x / 65536 % 256, x / 256 % 256, x % 256]

/-- The eight big-endian bytes of a 64-bit length field. -/
def be64 (x : Nat) : List Nat :=
  [x / 72057594037927936 % 256, x / 281474976710656 % 256,
   x / 1099511627776 % 256, x / 4294967296 % 256,
   x / 16777216 % 256, x / 65536 % 256, x / 256 % 256, x % 256]

/-- Collect chunks of `n + 1` elements: `cur` is the current chunk reversed,
`k` counts how many more elements it can take. -/
def chunksOfAux (n : Nat) : List α → Nat → List α → List (List α)
  | [], _, cur => [cur.reverse]
  | x :: xs, 0, cur => cur.reverse :: chunksOfAux n xs n [x]
  | x :: xs, k + 1, cur => chunksOfAux n xs k (x :: cur)

/-- Split a list into consecutive chunks of `n + 1` elements (the last chunk
may be shorter). -/
def chunksOf (n : Nat) : List α → List (List α)
  | [] => []
  | x :: xs => chunksOfAux n xs n [x]

/-- SHA-256 message padding: a `0x80` byte, zeros to 56 mod 64, then the
64-bit big-endian bit length. -/
def sha256Pad (msg : List Nat) : List Nat :=
  let len := msg.length
  let padZeros := (119 - len % 64) % 64
  msg ++ [0x80] ++ List.replicate padZeros 0 ++ be64 (len * 8)

/-- Extend the (reversed) schedule accumulator by `n` further words. -/
def sha256ScheduleAux : Nat → List Nat → List Nat
  | 0, acc => acc.reverse
  | n + 1, acc =>
    let g (i : Nat) : Nat := acc.getD i 0
    let s0 := Nat.xor (Nat.xor (rotr 7 (g 14)) (rotr 18 (g 14))) (Nat.shiftRight (g 14) 3)
    let s1 := Nat.xor (Nat.xor (rotr 17 (g 1)) (rotr 19 (g 1))) (Nat.shiftRight (g 1) 10)
    sha256ScheduleAux n (w32 (g 15 + s0 + g 6 + s1) :: acc)

/-- The 64-word message schedule of one 64-byte block. -/
def sha256Schedule (block : List Nat) : List Nat :=
  sha256ScheduleAux 48 ((chunksOf 3 block).map intFromBytesBE).reverse

/-- The eight SHA-256 working variables. -/
structure Sha8 where
  a : Nat
  b : Nat
  c : Nat
  d : Nat
  e : Nat
  f : Nat
  g : Nat
  h : Nat

/-- One SHA-256 compression round with round constant and schedule word. -/
def sha256Round (st : Sha8) (kw : Nat × Nat) : Sha8 :=
  let s1 := Nat.xor (Nat.xor (rotr 6 st.e) (rotr 11 st.e)) (rotr 25 st.e)
  let ch := Nat.xor (Nat.land st.e st.f) (Nat.land (not32 st.e) st.g)
  let temp1 := w32 (st.h + s1 + ch + kw.1 + kw.2)
  let s0 := Nat.xor (Nat.xor (rotr 2 st.a) (rotr 13 st.a)) (rotr 22 st.a)
  let maj := Nat.xor (Nat.xor (Nat.land st.a st.b) (Nat.land st.a st.c)) (Nat.land st.b st.c)
  let temp2 := w32 (s0 + maj)
  ⟨w32 (temp1 + temp2), st.a, st.b, st.c, w32 (st.d + temp1), st.e, st.f, st.g⟩

/-- Compress one 64-byte block into the running hash state. -/
def sha256Compress (hs : List Nat) (block : List Nat) : List Nat :=
  let ws := sha256Schedule block
  let init : Sha8 :=
    ⟨hs.getD 0 0, hs.getD 1 0, hs.getD 2 0, hs.getD 3 0,
     hs.getD 4 0, hs.getD 5 0, hs.getD 6 0, hs.getD 7 0⟩
  let st := (sha256K.zip ws).foldl sha256Round init
  [w32 (hs.getD 0 0 + st.a), w32 (hs.getD 1 0 + st.b),
   w32 (hs.getD 2 0 + st.c), w32 (hs.getD 3 0 + st.d),
   w32 (hs.getD 4 0 + st.e), w32 (hs.getD 5 0 + st.f),
   w32 (hs.getD 6 0 + st.g), w32 (hs.getD 7 0 + st.h)]

/-- The SHA-256 digest (32 bytes) of a byte list. -/
def sha256Bytes (msg : List Nat) : List Nat :=
  ((chunksOf 63 (sha256Pad msg)).foldl sha256Compress sha256H0).map be32 |>.flatten

/-- UTF-8 encoding of one character (code point) as bytes. -/
def utf8EncodeChar (c : Char) : List Nat :=
  let n := c.toNat
  if n < 128 then [n]
  else if n < 2048 then [192 + n / 64, 128 + n % 64]
  else if n < 65536 then [224 + n / 4096, 128 + n / 64 % 64, 128 + n % 64]
  else [240 + n / 262144, 128 + n / 4096 % 64, 128 + n / 64 % 64, 128 + n % 64]

/-- UTF-8 encoding of a string, the embedding of Python's `str.encode("utf-8")`. -/
def strUtf8 (s : String) : List Nat :=
  (s.data.map utf8EncodeChar).flatten

/-! ## String helpers modelling the Python primitives used by `evaluate.py`.

Attribute values reach `_matches_condition` through `str(...)`; we therefore
model user attribute values as their string rendering, and a `None`/missing
attribute as an absent key (both make the code's `exists` check false). -/

/-- First-match association-list lookup (Python `dict.get` for the dicts the
code builds, whose keys are unique). -/
def lookupKey {κ α : Type} [DecidableEq κ] : List (κ × α) → κ → Option α
  | [], _ => none
  | (k, v) :: rest, key => if k = key then some v else lookupKey rest key

/-- ASCII lowercasing, the embedding of Python `str.lower()` (the SDK's
operators and values are ASCII; non-ASCII case folding is out of scope). -/
def lowerStr (s : String) : String := ⟨s.data.map Char.toLower⟩

/-- Python whitespace for `str.strip()`. -/
def isPySpace (c : Char) : Bool :=
  c = ' ' || c = '\t' || c = '\n' || c = '\x0d' || c = '\x0b' || c = '\x0c'

/-- The embedding of Python `str.strip()`. -/
def pyStrip (l : List Char) : List Char :=
  ((l.dropWhile isPySpace).reverse.dropWhile isPySpace).reverse

/-- Split a character list at every occurrence of `sep`, the embedding of
Python `str.split(sep)` for a one-character separator. -/
def splitChar (sep : Char) : List Char → List (List Char)
  | [] => [[]]
  | c :: cs =>
    let r := splitChar sep cs
    if c = sep then [] :: r
    else
      match r with
      | h :: t => (c :: h) :: t
      | [] => [[c]]

/-- Digit-list value in base 10. -/
def digitsToNat (l : List Char) : Nat :=
  l.foldl (fun acc c => acc * 10 + (c.toNat - 48)) 0

/-- The embedding of Python `int(str)`: strip, optional sign, a nonempty run
of digits (underscored literals are out of scope of the claims). -/
def parsePyInt (l : List Char) : Option Int :=
  let l := pyStrip l
  let signed : Int × List Char :=
    match l with
    | '+' :: r => (1, r)
    | '-' :: r => (-1, r)
    | r => (1, r)
  if signed.2 ≠ [] && signed.2.all Char.isDigit then
    some (signed.1 * (digitsToNat signed.2 : Int))
  else none

/-- The embedding of Python `float(str)` on finite decimal literals
(optional sign, digits, optional fraction, optional exponent), as an exact
rational; `inf`/`nan` spellings are out of scope of the claims. -/
def parsePyFloat (s : String) : Option ℚ :=
  let l := pyStrip s.data
  let sign : ℚ × List Char :=
    match l with
    | '+' :: r => (1, r)
    | '-' :: r => (-1, r)
    | r => (1, r)
  let intPart := sign.2.takeWhile Char.isDigit
  let rest1 := sign.2.dropWhile Char.isDigit
  let fracState : List Char × List Char :=
    match rest1 with
    | '.' :: r => (r.takeWhile Char.isDigit, r.dropWhile Char.isDigit)
    | r => ([], r)
  let fracPart := fracState.1
  if intPart = [] && fracPart = [] then none
  else
    let mant : ℚ := (digitsToNat (intPart ++ fracPart) : ℚ) / (10 : ℚ) ^ fracPart.length
    match fracState.2 with
    | [] => some (sign.1 * mant)
    | e :: r =>
      if e = 'e' || e = 'E' then
        let esign : Bool × List Char :=
          match r with
          | '+' :: r' => (true, r')
          | '-' :: r' => (false, r')
          | r' => (true, r')
        if esign.2 ≠ [] && esign.2.all Char.isDigit then
          let ev := digitsToNat esign.2
          some (sign.1 * (if esign.1 then mant * (10 : ℚ) ^ ev else mant / (10 : ℚ) ^ ev))
        else none
      else none

/-- A pattern is invalid (Python `re.error`) when a `*` has no atom before
it: a leading `*` or a doubled `**`. -/
def rePatValid : List Char → Bool
  | '*' :: _ => false
  | l => noDoubleStar l
where
  noDoubleStar : List Char → Bool
    | '*' :: '*' :: _ => false
    | _ :: rest => noDoubleStar rest
    | [] => true

/-- Kleene-star backtracking over the text for one starred atom. -/
def reMatchStar (matchRest : List Char → Bool) (p : Char) : List Char → Bool
  | [] => matchRest []
  | c :: cs =>
    matchRest (c :: cs) || (((p = '.' && c ≠ '\n') || p = c) && reMatchStar matchRest p cs)

/-- Anchored-at-start regex matching for the core subset the model supports:
literal characters, `.` (any character but newline) and postfix `*`; other
metacharacters are treated as literals.  This embeds `re.match` as used by
`_matches_condition` (no claim exercises the regex operator). -/
def reMatchHere : List Char → List Char → Bool
  | [], _ => true
  | p :: '*' :: ps, s => reMatchStar (fun t => reMatchHere ps t) p s
  | p :: ps, c :: cs => ((p = '.' && c ≠ '\n') || p = c) && reMatchHere ps cs
  | _ :: _, [] => false
termination_by pat _ => pat.length
decreasing_by
  · simp only [List.length_cons]; omega
  · simp only [List.length_cons]; omega

/-- The embedding of `bool(re.match(pattern, s))` with invalid patterns
(`re.error`) evaluating to false, as in the source's `try`/`except`. -/
def pyReMatch (pat s : String) : Bool :=
  if rePatValid pat.data then reMatchHere pat.data s.data else false

/-! ## `evaluate.py` — data model and local evaluator. -/

/-- A targeting condition (`evaluate.Condition`); the source field
`attribute` is spelled `attr` because `attribute` is a Lean keyword. -/
structure Condition where
  attr : String
  operator : String
  value : String
deriving DecidableEq

/-- A targeting rule (`evaluate.TargetingRule`). -/
structure TargetingRule where
  id : String
  enabled : Bool
  rollout : Int
  conditions : List Condition
  name : Option String := none
deriving DecidableEq

/-- A feature flag with targeting rules (`evaluate.FlagRule`). -/
structure FlagRule where
  key : String
  enabled : Bool
  rollout : Int
  target_users : List String := []
  rules : List TargetingRule := []
deriving DecidableEq

/-- User context for targeting (`evaluate.UserContext`); attribute values are
modelled as their `str(...)` rendering, see above. -/
structure UserContext where
  id : String
  email : Option String := none
  attributes : List (String × String) := []
deriving DecidableEq

/-- The embedding of `evaluate._get_attribute_value`. -/
def get_attribute_value (attrName : String) (user : UserContext) : Option String :=
  if attrName = "id" then some user.id
  else if attrName = "email" then user.email
  else lookupKey user.attributes attrName

/-- The embedding of `evaluate._compare_numeric`: both sides parsed as Python
floats; a parse failure makes the condition fail. -/
def compare_numeric (attr_val : String) (cond_val : String) (op : String) : Bool :=
  match parsePyFloat attr_val, parsePyFloat cond_val with
  | some a, some b =>
    if op = ">" then a > b
    else if op = ">=" then a ≥ b
    else if op = "<" then a < b
    else if op = "<=" then a ≤ b
    else false
  | _, _ => false

/-- The embedding of `evaluate._parse_version`: leading `v`s stripped, parts
split on dots, each parsed as a Python int. -/
def parse_version (v : String) : Option (List Int) :=
  let parts := splitChar '.' (v.data.dropWhile (· = 'v'))
  let nums := parts.map parsePyInt
  if nums.all Option.isSome then some (nums.map (·.getD 0)) else none

/-- Componentwise comparison walk of two equal-length version lists, as the
loop in `evaluate._compare_semver`. -/
def semverWalk (op : String) : List Int → List Int → Bool
  | a :: as', b :: bs' =>
    if a > b then op = ">" || op = ">="
    else if a < b then op = "<" || op = "<="
    else semverWalk op as' bs'
  | _, _ => op = "=" || op = ">=" || op = "<="

/-- The embedding of `evaluate._compare_semver`: parse both versions, pad the
shorter with zeros, compare componentwise. -/
def compare_semver (attr_val cond_val : String) (op : String) : Bool :=
  match parse_version attr_val, parse_version cond_val with
  | some a, some b =>
    let n := max a.length b.length
    semverWalk op (a ++ List.replicate (n - a.length) 0)
      (b ++ List.replicate (n - b.length) 0)
  | _, _ => false

/-- The embedding of `evaluate._matches_condition`. -/
def matches_condition (condition : Condition) (user : UserContext) : Bool :=
  let attr_value := get_attribute_value condition.attr user
  let exists1 : Bool := match attr_value with
    | none => false
    | some v => v ≠ ""
  if condition.operator = "is_set" then exists1
  else if condition.operator = "is_not_set" then !exists1
  else if !exists1 then false
  else
    let raw := attr_value.getD ""
    let value := lowerStr raw
    let cond_value := lowerStr condition.value
    if condition.operator = "equals" then value = cond_value
    else if condition.operator = "not_equals" then value ≠ cond_value
    else if condition.operator = "contains" then decide (cond_value.data <:+: value.data)
    else if condition.operator = "not_contains" then !decide (cond_value.data <:+: value.data)
    else if condition.operator = "in" then
      ((splitChar ',' condition.value.data).map
        (fun v => lowerStr ⟨pyStrip v⟩)).contains value
    else if condition.operator = "not_in" then
      !((splitChar ',' condition.value.data).map
        (fun v => lowerStr ⟨pyStrip v⟩)).contains value
    else if condition.operator = "starts_with" then cond_value.data.isPrefixOf value.data
    else if condition.operator = "ends_with" then cond_value.data.isSuffixOf value.data
    else if condition.operator = "greater_than" then compare_numeric raw condition.value ">"
    else if condition.operator = "greater_equal" then compare_numeric raw condition.value ">="
    else if condition.operator = "less_than" then compare_numeric raw condition.value "<"
    else if condition.operator = "less_equal" then compare_numeric raw condition.value "<="
    else if condition.operator = "regex" then pyReMatch condition.value raw
    else if condition.operator = "semver_gt" then compare_semver raw condition.value ">"
    else if condition.operator = "semver_lt" then compare_semver raw condition.value "<"
    else if condition.operator = "semver_eq" then compare_semver raw condition.value "="
    else false

/-- The embedding of `evaluate._matches_rule`: a rule with no conditions never
matches; otherwise all conditions must match. -/
def matches_rule (rule : TargetingRule) (user : UserContext) : Bool :=
  if rule.conditions.isEmpty then false
  else rule.conditions.all (fun c => matches_condition c user)

/-- The embedding of `evaluate._is_in_rollout`: first 4 bytes of
`SHA-256("{flag_key}:{user_id}")` as a big-endian integer, mod 100, compared
strictly against the percentage. -/
def is_in_rollout (flag_key user_id : String) (percentage : Int) : Bool :=
  let hash_bytes := sha256Bytes (strUtf8 (flag_key ++ ":" ++ user_id))
  let value := intFromBytesBE (hash_bytes.take 4) % 100
  decide ((value : Int) < percentage)

/-- The embedding of `evaluate.evaluate_flag`.  The Python loop over
`rule.rules` returning at the first enabled, matching targeting rule is the
`List.find?`; the guard `if user and rule.rules:` is subsumed because `find?`
over `[]` is `none`. -/
def evaluate_flag (rule : FlagRule) (user : Option UserContext) : Bool :=
  if !rule.enabled then false
  else
    let targetHit : Bool :=
      match user with
      | some u => u.id ≠ "" && !rule.target_users.isEmpty && rule.target_users.contains u.id
      | none => false
    if targetHit then true
    else
      let ruleDecision : Option Bool :=
        match user with
        | some u =>
          (rule.rules.find? (fun tr => tr.enabled && matches_rule tr u)).map
            (fun tr =>
              if tr.rollout ≥ 100 then true
              else if tr.rollout ≤ 0 then false
              else is_in_rollout rule.key u.id tr.rollout)
        | none => none
      match ruleDecision with
      | some b => b
      | none =>
        if rule.rollout ≥ 100 then true
        else if rule.rollout ≤ 0 then false
        else
          match user with
          | none => false
          | some u => if u.id = "" then false else is_in_rollout rule.key u.id rule.rollout

/-- The embedding of `evaluate.evaluate_all_flags` over an association list
(Python dict comprehension preserving key order). -/
def evaluate_all_flags (rules : List (String × FlagRule)) (user : Option UserContext) :
    List (String × Bool) :=
  rules.map (fun p => (p.1, evaluate_flag p.2 user))

/-! ## `circuit_breaker.py` — the three-state circuit breaker.

Timestamps are integers in milliseconds (the source uses the float
`time.time() * 1000`; every comparison the module makes is against integer
millisecond thresholds, so integer instants model it exactly).  Each public
operation reads the clock a bounded number of times very close together; the
embedding passes one `now` per operation.  Event emission (`_emit`) never
influences the state machine (callback errors are swallowed), so events are
not part of this state. -/

/-- Circuit breaker states (`CircuitState`); `OPEN` is spelled `opened`
because `open` is a Lean keyword. -/
inductive CircuitState where
  | closed
  | opened
  | halfOpen
deriving DecidableEq

/-- Configuration (`CircuitBreakerConfig`). -/
structure CircuitBreakerConfig where
  failure_threshold : Nat
  recovery_timeout_ms : Int
  monitoring_window_ms : Int
  success_threshold : Nat

/-- The mutable state of a `CircuitBreaker` instance. -/
structure CBState where
  state : CircuitState
  failures : List Int
  last_failure_time : Int
  half_open_successes : Nat
deriving DecidableEq

/-- A freshly constructed breaker: closed, no failures. -/
def initialCBState : CBState := ⟨.closed, [], 0, 0⟩

/-- The embedding of `_cleanup_old_failures`. -/
def cleanup_old_failures (cfg : CircuitBreakerConfig) (now : Int) (s : CBState) : CBState :=
  { s with failures := s.failures.filter (fun t => t > now - cfg.monitoring_window_ms) }

/-- The embedding of `_should_attempt_reset`. -/
def should_attempt_reset (cfg : CircuitBreakerConfig) (now : Int) (s : CBState) : Bool :=
  now - s.last_failure_time ≥ cfg.recovery_timeout_ms

/-- The embedding of `_get_time_until_retry` (`max(0, int(recovery −
elapsed))`; Python's `int(...)` truncation is the identity at integer
milliseconds). -/
def get_time_until_retry (cfg : CircuitBreakerConfig) (now : Int) (s : CBState) : Int :=
  max 0 (cfg.recovery_timeout_ms - (now - s.last_failure_time))

/-- The embedding of `_transition_to` (the state change; the emitted
`state_change`/`circuit_*` notifications carry no feedback into the state). -/
def transition_to (s : CBState) (new_state : CircuitState) : CBState :=
  { s with state := new_state }

/-- The embedding of `_reset`. -/
def cbReset (s : CBState) : CBState :=
  transition_to { s with failures := [], half_open_successes := 0 } .closed

/-- The embedding of `_on_success`. -/
def on_success (cfg : CircuitBreakerConfig) (now : Int) (s : CBState) : CBState :=
  let s :=
    if s.state = .halfOpen then
      let s' := { s with half_open_successes := s.half_open_successes + 1 }
      if s'.half_open_successes ≥ cfg.success_threshold then cbReset s' else s'
    else s
  cleanup_old_failures cfg now s

/-- The embedding of `_on_failure`. -/
def on_failure (cfg : CircuitBreakerConfig) (now : Int) (s : CBState) : CBState :=
  let s := { s with failures := s.failures ++ [now], last_failure_time := now }
  if s.state = .halfOpen then
    { transition_to s .opened with half_open_successes := 0 }
  else
    let s := cleanup_old_failures cfg now s
    if s.failures.length ≥ cfg.failure_threshold then transition_to s .opened else s

/-- Outcome of one `execute` call: rejected fast (`CircuitOpenError` with its
`retry_after_ms`), or the wrapped operation's own success or error. -/
inductive ExecOut (ε α : Type) where
  | circuitOpen (retry_after_ms : Int)
  | ok (a : α)
  | err (e : ε)
deriving DecidableEq

/-- Result of one `execute` call: outcome, post-state, and whether the
wrapped operation was invoked at all. -/
structure ExecResult (ε α : Type) where
  result : ExecOut ε α
  state : CBState
  ran : Bool

/-- The `try`/`except` body of `execute`: run the operation and record its
outcome against the state machine. -/
def runThrough (cfg : CircuitBreakerConfig) (s : CBState) (now : Int)
    (op : Except ε α) : ExecResult ε α :=
  match op with
  | .ok a => ⟨.ok a, on_success cfg now s, true⟩
  | .error e => ⟨.err e, on_failure cfg now s, true⟩

/-- The embedding of `CircuitBreaker.execute`.  `op` is the outcome the
wrapped async operation would produce if invoked; `ran = false` exactly when
the breaker rejects without invoking it. -/
def cbExecute (cfg : CircuitBreakerConfig) (s : CBState) (now : Int)
    (op : Except ε α) : ExecResult ε α :=
  if s.state = .opened then
    if should_attempt_reset cfg now s then
      runThrough cfg (transition_to s .halfOpen) now op
    else
      ⟨.circuitOpen (get_time_until_retry cfg now s), s, false⟩
  else runThrough cfg s now op

/-- The embedding of `force_reset`. -/
def force_reset (s : CBState) : CBState := cbReset s

/-- The embedding of `force_open`: stamps the failure time and transitions to
`OPEN` (note: it touches neither `failures` nor `half_open_successes`). -/
def force_open (now : Int) (s : CBState) : CBState :=
  transition_to { s with last_failure_time := now } .opened

/-- The embedding of `is_allowing_requests`. -/
def is_allowing_requests (cfg : CircuitBreakerConfig) (s : CBState) (now : Int) : Bool :=
  match s.state with
  | .closed => true
  | .halfOpen => true
  | .opened => should_attempt_reset cfg now s

/-! ## `cache.py` — the stale-while-revalidate flag cache.

Timestamps are integer seconds (`time.time()`, whose fractional part no
age comparison of the claims resolves); ages are computed in milliseconds
exactly as the source computes them.  The hit/miss counters and
cache events feed only the excluded metrics collaborators; no claim depends
on them, so they are not part of this state.  Persistence is modelled as the
pure snapshot data `_persist` writes and `load` reads back. -/

/-- Cache configuration (`CacheConfig`), without the file path: persistence
is modelled as data below. -/
structure CacheConfig where
  ttl_ms : Int
  stale_ttl_ms : Int

/-- A cache entry (`cache.CacheEntry`). -/
structure CacheEntry where
  value : List (String × Bool)
  timestamp : Int
  stale : Bool := false
deriving DecidableEq

/-- A cache lookup result (`cache.CacheResult`). -/
structure CacheResult where
  flags : List (String × Bool)
  stale : Bool
deriving DecidableEq

/-- Python `del d[key]` on an association list with unique keys. -/
def eraseKey {α : Type} (l : List (String × α)) (key : String) : List (String × α) :=
  l.filter (fun p => p.1 ≠ key)

/-- Python `d[key] = v`: replace in place when present, append otherwise. -/
def dictInsert {α : Type} (l : List (String × α)) (key : String) (v : α) :
    List (String × α) :=
  if (lookupKey l key).isSome then l.map (fun p => if p.1 = key then (key, v) else p)
  else l ++ [(key, v)]

/-- The embedding of `FlagCache.get`: the lookup result and the cache left
behind (an expired entry is deleted). -/
def cacheGet (cfg : CacheConfig) (cache : List (String × CacheEntry)) (now : Int)
    (key : String) : Option CacheResult × List (String × CacheEntry) :=
  match lookupKey cache key with
  | none => (none, cache)
  | some entry =>
    let age_ms := (now - entry.timestamp) * 1000
    if age_ms < cfg.ttl_ms then (some ⟨entry.value, false⟩, cache)
    else if age_ms < cfg.stale_ttl_ms then (some ⟨entry.value, true⟩, cache)
    else (none, eraseKey cache key)

/-- The embedding of `FlagCache.set` (the in-memory update; the best-effort
write-through is `cachePersistData` of the result). -/
def cacheSet (cache : List (String × CacheEntry)) (now : Int) (key : String)
    (flags : List (String × Bool)) : List (String × CacheEntry) :=
  dictInsert cache key ⟨flags, now, false⟩

/-- An entry of the persisted snapshot: value and raw timestamp, exactly what
`_persist` writes per key. -/
structure PersistEntry where
  value : List (String × Bool)
  timestamp : Int
deriving DecidableEq

/-- The embedding of `FlagCache._persist`'s snapshot contents (the
`"entries"` list; the constant `"version": 1` envelope is omitted). -/
def cachePersistData (cache : List (String × CacheEntry)) : List (String × PersistEntry) :=
  cache.map (fun p => (p.1, ⟨p.2.value, p.2.timestamp⟩))

/-- The embedding of `FlagCache.load` on a fresh instance (empty in-memory
cache): admit each snapshot entry still younger than `stale_ttl_ms`, marking
it stale when its age has passed `ttl_ms`. -/
def cacheLoad (cfg : CacheConfig) (now : Int) (entries : List (String × PersistEntry)) :
    List (String × CacheEntry) :=
  entries.foldl
    (fun acc p =>
      let age_ms := (now - p.2.timestamp) * 1000
      if age_ms < cfg.stale_ttl_ms then
        dictInsert acc p.1 ⟨p.2.value, p.2.timestamp, decide (age_ms ≥ cfg.ttl_ms)⟩
      else acc)
    []

/-! ## `errors.py` — error taxonomy and classification. -/

/-- Error categories (`errors.ErrorCategory`). -/
inductive ErrorCategory where
  | auth
  | network
  | rate_limit
  | validation
  | not_found
  | internal
  | unknown
deriving DecidableEq

/-- A structured `RollgateError` as data: category, message, status code and
retryability. -/
structure ClassifiedError where
  category : ErrorCategory
  message : String
  status_code : Option Int
  retryable : Bool
deriving DecidableEq

/-- A Python exception reaching `classify_error`: either already a
`RollgateError` (with its structured fields) or a foreign exception carrying
only its message. -/
inductive PyError where
  | rollgateErr (category : ErrorCategory) (message : String)
      (status_code : Option Int) (retryable : Bool)
  | generic (message : String)
deriving DecidableEq

/-- Substring containment, Python's `needle in hay` on strings. -/
def strContainsSub (hay needle : String) : Bool :=
  decide (needle.data <:+: hay.data)

/-- The network-failure message indicators of `classify_error`. -/
def classifyNetworkIndicators : List String :=
  ["connection", "timeout", "econnrefused", "etimedout", "enotfound", "network", "dns"]

/-- The embedding of `errors.classify_error`.  A `RollgateError` is returned
unchanged; otherwise the lowered message is scanned for network indicators,
then the optional status code is consulted (`if status_code:` is false for
both `None` and `0`), and the fallback is an unclassified `RollgateError`. -/
def classify_error (e : PyError) (status_code : Option Int) : ClassifiedError :=
  match e with
  | .rollgateErr cat msg sc r => ⟨cat, msg, sc, r⟩
  | .generic msg =>
    if classifyNetworkIndicators.any (fun ind => strContainsSub (lowerStr msg) ind) then
      ⟨.network, msg, none, true⟩
    else
      match status_code with
      | some sc =>
        if sc = 0 then ⟨.unknown, msg, none, false⟩
        else if sc = 401 ∨ sc = 403 then ⟨.auth, msg, some sc, false⟩
        else if sc = 404 then ⟨.not_found, msg, some 404, false⟩
        else if sc = 429 then ⟨.rate_limit, msg, some 429, true⟩
        else if sc = 400 then ⟨.validation, msg, some 400, false⟩
        else if 500 ≤ sc ∧ sc < 600 then ⟨.internal, msg, some sc, true⟩
        else ⟨.unknown, msg, none, false⟩
      | none => ⟨.unknown, msg, none, false⟩

/-! ## `client.py` — the fetch orchestrator.

`RollgateClient._fetch_flags` composes the circuit breaker, the retry-wrapped
network call and the cache fallback.  The embedding carries the orchestrator
state (in-memory flags, cache contents, breaker state) explicitly; `now` is
the wall clock in seconds (the breaker receives `now * 1000` milliseconds,
mirroring the two modules' units).  The network outcome the retry-wrapped
operation `_do_fetch_flags` would produce if invoked is a parameter:
`Except.ok none` is a 304 Not-Modified no-op, `Except.ok (some flags)` a
fresh flag set, `Except.error e` a raised error (e.g. retry exhaustion). -/

/-- Events a `RollgateClient` emits to its subscribers. -/
inductive ClientEvent where
  | ready
  | flagsUpdated (flags : List (String × Bool))
  | flagsStale (flags : List (String × Bool))
  | flagChanged (key : String) (newValue : Bool) (oldValue : Option Bool)
  | errorEv (e : ClassifiedError)
deriving DecidableEq

/-- The orchestrator state the fetch pipeline touches. -/
structure ClientState where
  flags : List (String × Bool)
  cache : List (String × CacheEntry)
  breaker : CBState
deriving DecidableEq

/-- The embedding of `RollgateClient._update_flags`: replace the flag set and
emit one `flag_changed` per differing key of the new set (in its order),
then the aggregate `flags_updated`. -/
def update_flags (st : ClientState) (new_flags : List (String × Bool)) :
    ClientState × List ClientEvent :=
  let old_flags := st.flags
  let changes := new_flags.filterMap
    (fun p =>
      if lookupKey old_flags p.1 ≠ some p.2 then
        some (ClientEvent.flagChanged p.1 p.2 (lookupKey old_flags p.1))
      else none)
  ({ st with flags := new_flags }, changes ++ [ClientEvent.flagsUpdated new_flags])

/-- The embedding of `RollgateClient._use_cached_fallback`: read the cache
(possibly evicting an expired entry), adopt its flags when found, and emit
`flags_stale` when the hit was stale. -/
def use_cached_fallback (ccfg : CacheConfig) (st : ClientState) (now : Int) :
    ClientState × List ClientEvent :=
  let r := cacheGet ccfg st.cache now "flags"
  let st := { st with cache := r.2 }
  match r.1 with
  | none => (st, [])
  | some cached =>
    let u := update_flags st cached.flags
    (u.1, u.2 ++ if cached.stale then [ClientEvent.flagsStale u.1.flags] else [])

/-- The embedding of `RollgateClient._fetch_flags`.  Every branch returns
normally — the two `except` clauses catch `CircuitOpenError` and every other
exception — so the function's type already records that no failure escapes to
the caller. -/
def fetch_flags (cbcfg : CircuitBreakerConfig) (ccfg : CacheConfig) (st : ClientState)
    (now : Int) (net : Except PyError (Option (List (String × Bool)))) :
    ClientState × List ClientEvent :=
  if !is_allowing_requests cbcfg st.breaker (now * 1000) then
    use_cached_fallback ccfg st now
  else
    let ex := cbExecute cbcfg st.breaker (now * 1000) net
    let st := { st with breaker := ex.state }
    match ex.result with
    | .circuitOpen _ => use_cached_fallback ccfg st now
    | .ok none => (st, [])
    | .ok (some result) =>
      let st := { st with cache := cacheSet st.cache now "flags" result }
      update_flags st result
    | .err e =>
      let classified := classify_error e none
      let fb := use_cached_fallback ccfg st now
      (fb.1, ClientEvent.errorEv classified :: fb.2)

/-- The embedding of `RollgateClient.refresh`: it awaits `_fetch_flags`
directly — no deduplicator is consulted (the client never constructs a
`RequestDeduplicator`). -/
def clientRefresh (cbcfg : CircuitBreakerConfig) (ccfg : CacheConfig) (st : ClientState)
    (now : Int) (net : Except PyError (Option (List (String × Bool)))) :
    ClientState × List ClientEvent :=
  fetch_flags cbcfg ccfg st now net

/-- Result of the pre-await phase of one `_fetch_flags` call. -/
structure BeginResult where
  st : ClientState
  events : List ClientEvent
  ran : Bool

/-- The pre-await phase of `RollgateClient._fetch_flags`: everything the call
executes synchronously before `await fn()` inside `CircuitBreaker.execute`
suspends it.  `ran = true` exactly when the network operation was started.
Two overlapping `refresh()` calls interleave as begin-begin-finish-finish, so
the begin phase alone decides how many underlying fetches run. -/
def fetch_begin (cbcfg : CircuitBreakerConfig) (ccfg : CacheConfig) (st : ClientState)
    (now : Int) : BeginResult :=
  if !is_allowing_requests cbcfg st.breaker (now * 1000) then
    let fb := use_cached_fallback ccfg st now
    ⟨fb.1, fb.2, false⟩
  else if st.breaker.state = .opened then
    if should_attempt_reset cbcfg (now * 1000) st.breaker then
      ⟨{ st with breaker := transition_to st.breaker .halfOpen }, [], true⟩
    else
      let fb := use_cached_fallback ccfg st now
      ⟨fb.1, fb.2, false⟩
  else ⟨st, [], true⟩

/-! ## `dedup.py` — the single-flight request deduplicator.

`dedupe` takes the per-instance `asyncio.Lock` around: cleanup of expired
inflight slots, the inflight lookup, and (for the first caller) creation of
the shared future; the owner then runs `request_fn` outside the lock and
finally resolves and removes the slot.  Each of those lock-protected (or
single-resolution) sections is atomic under asyncio, so a concurrent history
is a sequence of atomic events: `arrive caller key now` is one caller's
lock-protected section, `complete key slot value` the owner's resolution of
the shared future.  `started` logs every invocation of `request_fn`. -/

/-- Deduplicator configuration (`DedupConfig`). -/
structure DedupConfig where
  enabled : Bool
  ttl_ms : Int

/-- One inflight slot: its key, the identity of its shared future (`slot`),
and its creation time in seconds. -/
structure DedupInflight where
  key : String
  slot : Nat
  timestamp : Int
deriving DecidableEq

/-- The deduplicator state plus the observables of a history: which
`request_fn` invocations started, which slot each caller awaits, and each
slot's resolved value. -/
structure DedupState where
  inflight : List DedupInflight
  nextSlot : Nat
  started : List (String × Nat)
  joined : List (Nat × Nat)
  resolved : List (Nat × Int)
  total_requests : Nat
  deduplicated_requests : Nat
deriving DecidableEq

/-- A fresh `RequestDeduplicator`. -/
def initialDedupState : DedupState := ⟨[], 0, [], [], [], 0, 0⟩

/-- One atomic event of a `dedupe` history. -/
inductive DedupEv where
  | arrive (caller : Nat) (key : String) (now : Int)
  | complete (key : String) (slot : Nat) (value : Int)
deriving DecidableEq

/-- One atomic step of the deduplicator, the embedding of
`RequestDeduplicator.dedupe`'s lock-protected section (`arrive`) and of its
resolution/removal in the owner's `finally` (`complete`).  The source's
expiry test `now − timestamp > ttl_ms / 1000` over exact seconds is written
cross-multiplied, `(now − timestamp) * 1000 > ttl_ms`, which is the same
inequality without the division.  With `enabled = false` every call executes
independently, registering no slot. -/
def dedupStep (cfg : DedupConfig) (s : DedupState) (ev : DedupEv) : DedupState :=
  match ev with
  | .arrive caller key now =>
    if !cfg.enabled then
      { s with
        started := s.started ++ [(key, s.nextSlot)],
        joined := s.joined ++ [(caller, s.nextSlot)],
        nextSlot := s.nextSlot + 1 }
    else
      let s := { s with
        total_requests := s.total_requests + 1,
        inflight := s.inflight.filter
          (fun r => !((now - r.timestamp) * 1000 > cfg.ttl_ms)) }
      match s.inflight.find? (fun r => r.key == key) with
      | some r =>
        { s with
          deduplicated_requests := s.deduplicated_requests + 1,
          joined := s.joined ++ [(caller, r.slot)] }
      | none =>
        { s with
          inflight := s.inflight ++ [⟨key, s.nextSlot, now⟩],
          started := s.started ++ [(key, s.nextSlot)],
          joined := s.joined ++ [(caller, s.nextSlot)],
          nextSlot := s.nextSlot + 1 }
  | .complete key slot v =>
    { s with
      resolved := s.resolved ++ [(slot, v)],
      inflight := s.inflight.filter (fun r => !(r.key == key && r.slot == slot)) }

/-- Run a history of deduplicator events. -/
def dedupRun (cfg : DedupConfig) (evs : List DedupEv) : DedupState :=
  evs.foldl (dedupStep cfg) initialDedupState

/-- How many `request_fn` invocations a history started for `key`. -/
def dedupStartedFor (s : DedupState) (key : String) : Nat :=
  (s.started.filter (fun p => p.1 == key)).length

/-- The value a caller receives: the resolution of the slot it awaits. -/
def dedupReceived (s : DedupState) (caller : Nat) : Option Int :=
  (lookupKey s.joined caller).bind (lookupKey s.resolved)

/-! ## Association-list lemmas shared by the claims. -/

theorem lookupKey_eq_none_iff {κ α : Type} [DecidableEq κ] (l : List (κ × α)) (k : κ) :
    lookupKey l k = none ↔ k ∉ l.map Prod.fst := by
  induction l with
  | nil => simp [lookupKey]
  | cons p rest ih =>
    by_cases h : p.1 = k
    · simp [lookupKey, h]
    · simp [lookupKey, h, ih, Ne.symm h]

theorem lookupKey_eraseKey {α : Type} (l : List (String × α)) (key : String) :
    lookupKey (eraseKey l key) key = none := by
  rw [lookupKey_eq_none_iff]
  intro hmem
  rcases List.mem_map.mp hmem with ⟨p, hp, hk⟩
  rcases List.mem_filter.mp hp with ⟨_, hne⟩
  have hne' : p.1 ≠ key := by simpa using hne
  exact hne' hk

theorem dictInsert_of_lookup_none {α : Type} (l : List (String × α)) (k : String) (v : α)
    (h : lookupKey l k = none) : dictInsert l k v = l ++ [(k, v)] := by
  simp [dictInsert, h]

/-! ## Claim C6 — the cache's three-zone age model. -/

/-- Claim C6: `FlagCache.get` implements the three-zone age model.  For an
entry of age `now − timestamp` (in ms): age below `ttl_ms` returns the value
marked not stale and leaves the cache unchanged; age in `[ttl_ms,
stale_ttl_ms)` returns the value marked stale and leaves the cache unchanged;
age at or past `stale_ttl_ms` reports not-found and deletes the entry; a key
with no entry reports not-found and leaves the cache unchanged.  The zones
partition the age axis, which presupposes `ttl_ms ≤ stale_ttl_ms` (as in the
defaults and every configuration the spec describes). -/
theorem cacheGet_three_zones (cfg : CacheConfig) (cache : List (String × CacheEntry))
    (now : Int) (key : String) (hcfg : cfg.ttl_ms ≤ cfg.stale_ttl_ms) :
    (lookupKey cache key = none → cacheGet cfg cache now key = (none, cache)) ∧
    (∀ e, lookupKey cache key = some e →
      ((now - e.timestamp) * 1000 < cfg.ttl_ms →
        cacheGet cfg cache now key = (some ⟨e.value, false⟩, cache)) ∧
      (cfg.ttl_ms ≤ (now - e.timestamp) * 1000 →
        (now - e.timestamp) * 1000 < cfg.stale_ttl_ms →
        cacheGet cfg cache now key = (some ⟨e.value, true⟩, cache)) ∧
      (cfg.stale_ttl_ms ≤ (now - e.timestamp) * 1000 →
        (cacheGet cfg cache now key).1 = none ∧
        lookupKey (cacheGet cfg cache now key).2 key = none)) := by
  constructor
  · intro h
    simp [cacheGet, h]
  · intro e he
    refine ⟨fun h1 => ?_, fun h1 h2 => ?_, fun h1 => ?_⟩
    · simp [cacheGet, he, h1]
    · rw [cacheGet, he]
      simp only [if_neg (not_lt.mpr h1), if_pos h2]
    · have h2 : ¬ (now - e.timestamp) * 1000 < cfg.stale_ttl_ms := not_lt.mpr h1
      have h3 : ¬ (now - e.timestamp) * 1000 < cfg.ttl_ms := by
        intro h3
        exact h2 (lt_of_lt_of_le h3 hcfg)
      constructor
      · simp [cacheGet, he, h2, h3]
      · simp [cacheGet, he, h2, h3, lookupKey_eraseKey]

/-- Witness for C6 at the spec's own test point (scaled by 1000 to integer
seconds): entry set at t = 0 with ttl 100000 ms and staleTtl 500000 ms is
fresh at 50 s, stale-but-present at 150 s, and evicted at 600 s; an unknown
key misses. -/
theorem cacheGet_three_zones_witness :
    cacheGet ⟨100000, 500000⟩ [("flags", ⟨[("f", true)], 0, false⟩)] 50 "flags"
      = (some ⟨[("f", true)], false⟩, [("flags", ⟨[("f", true)], 0, false⟩)]) ∧
    cacheGet ⟨100000, 500000⟩ [("flags", ⟨[("f", true)], 0, false⟩)] 150 "flags"
      = (some ⟨[("f", true)], true⟩, [("flags", ⟨[("f", true)], 0, false⟩)]) ∧
    (cacheGet ⟨100000, 500000⟩ [("flags", ⟨[("f", true)], 0, false⟩)] 600 "flags").1 = none ∧
    lookupKey (cacheGet ⟨100000, 500000⟩ [("flags", ⟨[("f", true)], 0, false⟩)] 600 "flags").2
      "flags" = none ∧
    cacheGet ⟨100000, 500000⟩ [("flags", ⟨[("f", true)], 0, false⟩)] 50 "other"
      = (none, [("flags", ⟨[("f", true)], 0, false⟩)]) := by
  have h1 := cacheGet_three_zones ⟨100000, 500000⟩ [("flags", ⟨[("f", true)], 0, false⟩)]
    50 "flags" (by decide)
  have h2 := cacheGet_three_zones ⟨100000, 500000⟩ [("flags", ⟨[("f", true)], 0, false⟩)]
    150 "flags" (by decide)
  have h3 := cacheGet_three_zones ⟨100000, 500000⟩ [("flags", ⟨[("f", true)], 0, false⟩)]
    600 "flags" (by decide)
  have h4 := cacheGet_three_zones ⟨100000, 500000⟩ [("flags", ⟨[("f", true)], 0, false⟩)]
    50 "other" (by decide)
  exact ⟨(h1.2 ⟨[("f", true)], 0, false⟩ (by decide)).1 (by decide),
    (h2.2 ⟨[("f", true)], 0, false⟩ (by decide)).2.1 (by decide) (by decide),
    ((h3.2 ⟨[("f", true)], 0, false⟩ (by decide)).2.2 (by decide)).1,
    ((h3.2 ⟨[("f", true)], 0, false⟩ (by decide)).2.2 (by decide)).2,
    h4.1 (by decide)⟩

/-! ## Claim C7 — persist/load round-trip. -/

/-- What `load` makes of one persisted snapshot entry: admitted with
recomputed staleness while younger than `stale_ttl_ms`, dropped otherwise. -/
def loadRestore (cfg : CacheConfig) (now : Int) (p : String × PersistEntry) :
    Option (String × CacheEntry) :=
  if (now - p.2.timestamp) * 1000 < cfg.stale_ttl_ms then
    some (p.1, ⟨p.2.value, p.2.timestamp, decide ((now - p.2.timestamp) * 1000 ≥ cfg.ttl_ms)⟩)
  else none

theorem lookupKey_append_of_none {κ α : Type} [DecidableEq κ]
    (l1 l2 : List (κ × α)) (k : κ) (h : lookupKey l1 k = none) :
    lookupKey (l1 ++ l2) k = lookupKey l2 k := by
  induction l1 with
  | nil => rfl
  | cons p rest ih =>
    obtain ⟨k1, v1⟩ := p
    by_cases hp : k1 = k
    · simp [lookupKey, hp] at h
    · simp only [lookupKey, if_neg hp, List.cons_append] at h ⊢
      exact ih h

theorem cacheLoad_foldl_eq (cfg : CacheConfig) (now : Int) :
    ∀ (entries : List (String × PersistEntry)) (acc : List (String × CacheEntry)),
      (entries.map Prod.fst).Nodup →
      (∀ k, k ∈ entries.map Prod.fst → lookupKey acc k = none) →
      entries.foldl
        (fun acc p =>
          if (now - p.2.timestamp) * 1000 < cfg.stale_ttl_ms then
            dictInsert acc p.1
              ⟨p.2.value, p.2.timestamp, decide ((now - p.2.timestamp) * 1000 ≥ cfg.ttl_ms)⟩
          else acc)
        acc
      = acc ++ entries.filterMap (loadRestore cfg now) := by
  intro entries
  induction entries with
  | nil => intro acc _ _; simp
  | cons p rest ih =>
    intro acc hnodup hdisj
    have hpacc : lookupKey acc p.1 = none := hdisj p.1 (by simp)
    have hnodup' : (rest.map Prod.fst).Nodup := (List.nodup_cons.mp (by simpa using hnodup)).2
    have hpnotin : p.1 ∉ rest.map Prod.fst := (List.nodup_cons.mp (by simpa using hnodup)).1
    simp only [List.foldl_cons, List.filterMap_cons]
    by_cases hc : (now - p.2.timestamp) * 1000 < cfg.stale_ttl_ms
    · rw [if_pos hc, dictInsert_of_lookup_none _ _ _ hpacc]
      rw [ih (acc ++ [(p.1, _)]) hnodup' ?_]
      · rw [loadRestore, if_pos hc]
        simp
      · intro k hk
        have hkp : p.1 ≠ k := fun h => hpnotin (h ▸ hk)
        rw [lookupKey_append_of_none _ _ _ (hdisj k (by simp [hk]))]
        simp [lookupKey, hkp]
    · rw [if_neg hc, ih acc hnodup' (fun k hk => hdisj k (by simp [hk]))]
      rw [loadRestore, if_neg hc]

theorem lookupKey_filterMap_of_not_mem {κ α β : Type} [DecidableEq κ]
    (f : κ × α → Option (κ × β)) (hf : ∀ p q, f p = some q → q.1 = p.1) :
    ∀ (l : List (κ × α)) (key : κ), key ∉ l.map Prod.fst →
      lookupKey (l.filterMap f) key = none := by
  intro l
  induction l with
  | nil => intro key _; rfl
  | cons p rest ih =>
    intro key hkey
    have hkp : p.1 ≠ key := fun h => hkey (by simp [← h])
    have hkrest : key ∉ rest.map Prod.fst := fun h => hkey (by simp [h])
    rw [List.filterMap_cons]
    cases hfp : f p with
    | none => exact ih key hkrest
    | some q =>
      have hq := hf p q hfp
      rw [lookupKey]
      simp only [if_neg (hq ▸ hkp)]
      exact ih key hkrest

theorem lookupKey_filterMap {κ α β : Type} [DecidableEq κ]
    (f : κ × α → Option (κ × β)) (hf : ∀ p q, f p = some q → q.1 = p.1) :
    ∀ (l : List (κ × α)), (l.map Prod.fst).Nodup → ∀ key,
      lookupKey (l.filterMap f) key
        = (lookupKey l key).bind (fun a => (f (key, a)).map Prod.snd) := by
  intro l
  induction l with
  | nil => intro _ key; rfl
  | cons p rest ih =>
    intro hnodup key
    have hnodup' : (rest.map Prod.fst).Nodup := (List.nodup_cons.mp (by simpa using hnodup)).2
    have hpnotin : p.1 ∉ rest.map Prod.fst := (List.nodup_cons.mp (by simpa using hnodup)).1
    rw [List.filterMap_cons]
    by_cases hp : p.1 = key
    · have hpk : p = (key, p.2) := by rw [← hp]
      rw [lookupKey]
      simp only [if_pos hp]
      cases hfp : f p with
      | none =>
        rw [lookupKey_filterMap_of_not_mem f hf rest key (hp ▸ hpnotin)]
        rw [hpk] at hfp
        simp [hfp]
      | some q =>
        have hq := hf p q hfp
        rw [lookupKey]
        simp only [if_pos (hq.trans hp)]
        rw [hpk] at hfp
        simp [hfp]
    · rw [lookupKey]
      simp only [if_neg hp]
      cases hfp : f p with
      | none => exact ih hnodup' key
      | some q =>
        have hq := hf p q hfp
        rw [lookupKey]
        simp only [if_neg (hq ▸ hp)]
        exact ih hnodup' key

/-- Claim C7: after `set` persists the cache, a fresh `FlagCache` with the
same configuration that calls `load()` reproduces exactly the flag values of
every persisted entry whose age is still below `stale_ttl_ms` — keeping the
original timestamp and marking the entry stale iff its recomputed age is at
least `ttl_ms` — and admits no entry whose age has reached `stale_ttl_ms`
(nor any key the cache never held). -/
theorem cacheLoad_roundTrip (cfg : CacheConfig) (c : List (String × CacheEntry)) (now : Int)
    (hnodup : (c.map Prod.fst).Nodup) :
    (∀ key e, lookupKey c key = some e →
      ((now - e.timestamp) * 1000 < cfg.stale_ttl_ms →
        lookupKey (cacheLoad cfg now (cachePersistData c)) key =
          some ⟨e.value, e.timestamp, decide ((now - e.timestamp) * 1000 ≥ cfg.ttl_ms)⟩) ∧
      ((now - e.timestamp) * 1000 ≥ cfg.stale_ttl_ms →
        lookupKey (cacheLoad cfg now (cachePersistData c)) key = none)) ∧
    (∀ key, lookupKey c key = none →
      lookupKey (cacheLoad cfg now (cachePersistData c)) key = none) := by
  have hkeys : (cachePersistData c).map Prod.fst = c.map Prod.fst := by
    simp [cachePersistData]
  have hload : cacheLoad cfg now (cachePersistData c)
      = (cachePersistData c).filterMap (loadRestore cfg now) := by
    have := cacheLoad_foldl_eq cfg now (cachePersistData c) []
      (by rw [hkeys]; exact hnodup) (fun k _ => rfl)
    simpa [cacheLoad] using this
  have hcomp : (cachePersistData c).filterMap (loadRestore cfg now)
      = c.filterMap (fun p => loadRestore cfg now (p.1, ⟨p.2.value, p.2.timestamp⟩)) := by
    rw [cachePersistData, List.filterMap_map]
    rfl
  have hf : ∀ (p : String × CacheEntry) (q : String × CacheEntry),
      loadRestore cfg now (p.1, ⟨p.2.value, p.2.timestamp⟩) = some q → q.1 = p.1 := by
    intro p q h
    rw [loadRestore] at h
    by_cases hc : (now - p.2.timestamp) * 1000 < cfg.stale_ttl_ms
    · simp only [if_pos hc] at h
      cases h
      rfl
    · simp [if_neg hc] at h
  have hmain := lookupKey_filterMap
    (fun p : String × CacheEntry => loadRestore cfg now (p.1, ⟨p.2.value, p.2.timestamp⟩))
    hf c hnodup
  constructor
  · intro key e he
    have h := hmain key
    rw [he] at h
    rw [hload, hcomp]
    constructor
    · intro hc
      rw [h]
      simp [loadRestore, if_pos hc]
    · intro hc
      rw [h]
      simp [loadRestore, if_neg (not_lt.mpr hc)]
  · intro key he
    have h := hmain key
    rw [he] at h
    rw [hload, hcomp, h]
    rfl

/-- Witness for C7: a two-entry cache persisted and reloaded at t = 200 s
with ttl 100000 ms, staleTtl 500000 ms: the entry from t = 150 s comes back
fresh-valued and unstale, the entry from t = 50 s comes back stale, and a
reload at t = 700 s drops the t = 50 s entry. -/
theorem cacheLoad_roundTrip_witness :
    lookupKey (cacheLoad ⟨100000, 500000⟩ 200
        (cachePersistData [("flags", ⟨[("a", true)], 150, false⟩), ("other", ⟨[("b", false)], 50, false⟩)]))
      "flags" = some ⟨[("a", true)], 150, false⟩ ∧
    lookupKey (cacheLoad ⟨100000, 500000⟩ 200
        (cachePersistData [("flags", ⟨[("a", true)], 150, false⟩), ("other", ⟨[("b", false)], 50, false⟩)]))
      "other" = some ⟨[("b", false)], 50, true⟩ ∧
    lookupKey (cacheLoad ⟨100000, 500000⟩ 700
        (cachePersistData [("flags", ⟨[("a", true)], 150, false⟩), ("other", ⟨[("b", false)], 50, false⟩)]))
      "other" = none := by
  have h1 := cacheLoad_roundTrip ⟨100000, 500000⟩
    [("flags", ⟨[("a", true)], 150, false⟩), ("other", ⟨[("b", false)], 50, false⟩)] 200
    (by decide)
  have h2 := cacheLoad_roundTrip ⟨100000, 500000⟩
    [("flags", ⟨[("a", true)], 150, false⟩), ("other", ⟨[("b", false)], 50, false⟩)] 700
    (by decide)
  exact ⟨(h1.1 "flags" ⟨[("a", true)], 150, false⟩ (by decide)).1 (by decide),
    (h1.1 "other" ⟨[("b", false)], 50, false⟩ (by decide)).1 (by decide),
    (h2.1 "other" ⟨[("b", false)], 50, false⟩ (by decide)).2 (by decide)⟩

/-! ## Claim C9 — flag replacement and change events. -/

/-- Test for the aggregate `flags_updated` event. -/
def isFlagsUpdatedEv : ClientEvent → Bool
  | .flagsUpdated _ => true
  | _ => false

theorem cbExecute_ok_of_allowing {ε α : Type} (cfg : CircuitBreakerConfig) (s : CBState)
    (now : Int) (a : α) (h : is_allowing_requests cfg s now = true) :
    ∃ s', cbExecute cfg s now (Except.ok a : Except ε α) = ⟨.ok a, s', true⟩ := by
  by_cases hop : s.state = .opened
  · have hres : should_attempt_reset cfg now s = true := by
      rw [is_allowing_requests, hop] at h
      exact h
    rw [cbExecute, if_pos hop, if_pos hres]
    exact ⟨_, rfl⟩
  · rw [cbExecute, if_neg hop]
    exact ⟨_, rfl⟩

/-- Claim C9: on every successful (non-304) fetch through an allowing
breaker, the new flag set replaces the old one and the emitted events are
exactly those of `_update_flags`; and `_update_flags` emits, for every key
whose boolean value in the new set differs from the prior set's value at
that key, a `flag_changed` event carrying the key, the new value and the old
value, all before the single aggregate `flags_updated` event; no other
per-flag events fire. -/
theorem update_flags_events (st : ClientState) (new_flags : List (String × Bool)) :
    (∀ (cbcfg : CircuitBreakerConfig) (ccfg : CacheConfig) (now : Int),
      is_allowing_requests cbcfg st.breaker (now * 1000) = true →
      (fetch_flags cbcfg ccfg st now (Except.ok (some new_flags))).1.flags = new_flags ∧
      (fetch_flags cbcfg ccfg st now (Except.ok (some new_flags))).2
        = (update_flags st new_flags).2) ∧
    (update_flags st new_flags).1.flags = new_flags ∧
    ((update_flags st new_flags).2.getLast?
      = some (ClientEvent.flagsUpdated new_flags)) ∧
    (∀ ev, ev ∈ (update_flags st new_flags).2.dropLast →
      ∃ k v, ev = ClientEvent.flagChanged k v (lookupKey st.flags k) ∧
        (k, v) ∈ new_flags ∧ lookupKey st.flags k ≠ some v) ∧
    (∀ k v, (k, v) ∈ new_flags → lookupKey st.flags k ≠ some v →
      ClientEvent.flagChanged k v (lookupKey st.flags k)
        ∈ (update_flags st new_flags).2.dropLast) ∧
    ((update_flags st new_flags).2.filter isFlagsUpdatedEv).length = 1 := by
  have hev : (update_flags st new_flags).2
      = new_flags.filterMap
          (fun p =>
            if lookupKey st.flags p.1 ≠ some p.2 then
              some (ClientEvent.flagChanged p.1 p.2 (lookupKey st.flags p.1))
            else none)
        ++ [ClientEvent.flagsUpdated new_flags] := rfl
  have hchanges : ∀ ev ∈ (update_flags st new_flags).2.dropLast,
      ∃ k v, ev = ClientEvent.flagChanged k v (lookupKey st.flags k) ∧
        (k, v) ∈ new_flags ∧ lookupKey st.flags k ≠ some v := by
    intro ev hev'
    rw [hev, List.dropLast_concat] at hev'
    rcases List.mem_filterMap.mp hev' with ⟨p, hp, hfp⟩
    by_cases hc : lookupKey st.flags p.1 ≠ some p.2
    · rw [if_pos hc] at hfp
      cases hfp
      exact ⟨p.1, p.2, rfl, by simpa using hp, hc⟩
    · rw [if_neg hc] at hfp
      cases hfp
  refine ⟨?_, rfl, ?_, hchanges, ?_, ?_⟩
  · intro cbcfg ccfg now hallow
    obtain ⟨s', hex⟩ := @cbExecute_ok_of_allowing PyError (Option (List (String × Bool)))
      cbcfg st.breaker (now * 1000) (some new_flags) hallow
    have hfetch : fetch_flags cbcfg ccfg st now (Except.ok (some new_flags))
        = update_flags
            { st with breaker := s', cache := cacheSet st.cache now "flags" new_flags }
            new_flags := by
      rw [fetch_flags, hallow]
      simp only [Bool.not_true, Bool.false_eq_true, if_false, hex]
    rw [hfetch]
    exact ⟨rfl, rfl⟩
  · rw [hev]
    simp
  · intro k v hkv hne
    rw [hev, List.dropLast_concat]
    exact List.mem_filterMap.mpr ⟨(k, v), hkv, by simp [hne]⟩
  · rw [hev, List.filter_append]
    have hnil : ((update_flags st new_flags).2.dropLast).filter isFlagsUpdatedEv = [] := by
      rw [List.filter_eq_nil_iff]
      intro ev hev'
      rcases hchanges ev hev' with ⟨k, v, rfl, -, -⟩
      simp [isFlagsUpdatedEv]
    rw [hev, List.dropLast_concat] at hnil
    rw [hnil]
    simp [isFlagsUpdatedEv]

/-- Witness for C9: from `{a ↦ true, b ↦ false}` to `{a ↦ false, c ↦ true}`
the events are `flag_changed a false (was true)`, `flag_changed c true (was
absent)`, then the one `flags_updated`; the unchanged-per-value key never
fires; and a successful fetch of that set through a closed breaker replaces
the flags and emits exactly those events. -/
theorem update_flags_events_witness :
    (fetch_flags ⟨5, 30000, 60000, 3⟩ ⟨100000, 500000⟩
        ⟨[("a", true), ("b", false)], [], initialCBState⟩ 100
        (Except.ok (some [("a", false), ("c", true)]))).1.flags
      = [("a", false), ("c", true)] ∧
    (fetch_flags ⟨5, 30000, 60000, 3⟩ ⟨100000, 500000⟩
        ⟨[("a", true), ("b", false)], [], initialCBState⟩ 100
        (Except.ok (some [("a", false), ("c", true)]))).2
      = (update_flags ⟨[("a", true), ("b", false)], [], initialCBState⟩
          [("a", false), ("c", true)]).2 ∧
    (update_flags ⟨[("a", true), ("b", false)], [], initialCBState⟩
        [("a", false), ("c", true)]).1.flags = [("a", false), ("c", true)] ∧
    (update_flags ⟨[("a", true), ("b", false)], [], initialCBState⟩
        [("a", false), ("c", true)]).2.getLast?
      = some (ClientEvent.flagsUpdated [("a", false), ("c", true)]) ∧
    ClientEvent.flagChanged "a" false (some true)
      ∈ (update_flags ⟨[("a", true), ("b", false)], [], initialCBState⟩
          [("a", false), ("c", true)]).2.dropLast ∧
    ClientEvent.flagChanged "c" true none
      ∈ (update_flags ⟨[("a", true), ("b", false)], [], initialCBState⟩
          [("a", false), ("c", true)]).2.dropLast ∧
    ((update_flags ⟨[("a", true), ("b", false)], [], initialCBState⟩
        [("a", false), ("c", true)]).2.filter isFlagsUpdatedEv).length = 1 := by
  have h := update_flags_events ⟨[("a", true), ("b", false)], [], initialCBState⟩
    [("a", false), ("c", true)]
  refine ⟨(h.1 ⟨5, 30000, 60000, 3⟩ ⟨100000, 500000⟩ 100 (by decide)).1,
    (h.1 ⟨5, 30000, 60000, 3⟩ ⟨100000, 500000⟩ 100 (by decide)).2,
    h.2.1, h.2.2.1, ?_, ?_, h.2.2.2.2.2⟩
  · have := h.2.2.2.2.1 "a" false (by decide) (by decide)
    simpa using this
  · have := h.2.2.2.2.1 "c" true (by decide) (by decide)
    simpa using this

/-! ## Claim C10 — evaluation with an absent user context. -/

/-- Claim C10: with `user = None`, `evaluate_flag` skips the allowlist and
every targeting rule — the result is a function of `enabled` and the default
rollout alone, unchanged under arbitrary `target_users` and `rules` (even
rules whose conditions, such as `is_not_set`, would match a missing
attribute) — and equals the default decision: `true` iff the flag is enabled
with rollout ≥ 100; any partial (or zero) rollout gives `false`. -/
theorem evaluate_flag_no_user (rule : FlagRule) :
    evaluate_flag rule none = (rule.enabled && decide (rule.rollout ≥ 100)) ∧
    (∀ (tu : List String) (rs : List TargetingRule),
      evaluate_flag { rule with target_users := tu, rules := rs } none
        = evaluate_flag rule none) := by
  have hchar : ∀ r : FlagRule, evaluate_flag r none
      = (r.enabled && decide (r.rollout ≥ 100)) := by
    intro r
    rw [evaluate_flag]
    by_cases he : r.enabled
    · simp only [he, Bool.not_true, Bool.false_eq_true, if_false, Bool.true_and]
      by_cases h1 : r.rollout ≥ 100
      · simp [h1]
      · by_cases h2 : r.rollout ≤ 0 <;> simp [h1, h2]
    · simp [he]
  exact ⟨hchar rule, fun tu rs => (hchar _).trans (hchar rule).symm⟩

/-- Witness for C10: an enabled flag at 50% with an `is_not_set` targeting
rule (which would match a missing attribute) still evaluates to `false` for
an absent user, exactly as with no rules at all; at rollout 100 it is `true`. -/
theorem evaluate_flag_no_user_witness :
    evaluate_flag ⟨"f", true, 50, ["u1"],
        [⟨"r1", true, 100, [⟨"plan", "is_not_set", ""⟩], none⟩]⟩ none = false ∧
    evaluate_flag ⟨"f", true, 50, [], []⟩ none = false ∧
    evaluate_flag ⟨"f", true, 100, [], []⟩ none = true ∧
    evaluate_flag ⟨"f", false, 100, [], []⟩ none = false := by
  refine ⟨?_, ?_, ?_, ?_⟩
  · have h := (evaluate_flag_no_user ⟨"f", true, 50, [], []⟩).2 ["u1"]
      [⟨"r1", true, 100, [⟨"plan", "is_not_set", ""⟩], none⟩]
    rw [h, (evaluate_flag_no_user ⟨"f", true, 50, [], []⟩).1]
    decide
  · exact (evaluate_flag_no_user ⟨"f", true, 50, [], []⟩).1
  · exact (evaluate_flag_no_user ⟨"f", true, 100, [], []⟩).1
  · exact (evaluate_flag_no_user ⟨"f", false, 100, [], []⟩).1

/-! ## Claim C2 — the consistent-hash rollout decision.

Grounding: the SHA-256 embedding reproduces the FIPS 180-4 test vectors. -/

/-- The FIPS 180-4 test vector for the empty message. -/
theorem sha256Bytes_empty_vector :
    sha256Bytes [] =
      [0xe3, 0xb0, 0xc4, 0x42, 0x98, 0xfc, 0x1c, 0x14, 0x9a, 0xfb, 0xf4, 0xc8,
       0x99, 0x6f, 0xb9, 0x24, 0x27, 0xae, 0x41, 0xe4, 0x64, 0x9b, 0x93, 0x4c,
       0xa4, 0x95, 0x99, 0x1b, 0x78, 0x52, 0xb8, 0x55] := by decide

/-- The FIPS 180-4 test vector for the message `"abc"`. -/
theorem sha256Bytes_abc_vector :
    sha256Bytes (strUtf8 "abc") =
      [0xba, 0x78, 0x16, 0xbf, 0x8f, 0x01, 0xcf, 0xea, 0x41, 0x41, 0x40, 0xde,
       0x5d, 0xae, 0x22, 0x23, 0xb0, 0x03, 0x61, 0xa3, 0x96, 0x17, 0x7a, 0x9c,
       0xb4, 0x10, 0xff, 0x61, 0xf2, 0x00, 0x15, 0xad] := by decide

theorem sha256Compress_length (hs block : List Nat) : (sha256Compress hs block).length = 8 :=
  rfl

theorem sha256_foldl_length (blocks : List (List Nat)) :
    ∀ hs : List Nat, hs.length = 8 → (blocks.foldl sha256Compress hs).length = 8 := by
  induction blocks with
  | nil => intro hs h; simpa using h
  | cons b rest ih => intro hs _; exact ih (sha256Compress hs b) (sha256Compress_length hs b)

theorem flatten_map_be32_length (l : List Nat) : ((l.map be32).flatten).length = 4 * l.length := by
  induction l with
  | nil => rfl
  | cons x rest ih =>
    simp only [List.map_cons, List.flatten_cons, List.length_append, ih, List.length_cons]
    simp [be32]
    omega

/-- Every SHA-256 digest is 32 bytes. -/
theorem sha256Bytes_length (msg : List Nat) : (sha256Bytes msg).length = 32 := by
  rw [sha256Bytes]
  rw [flatten_map_be32_length, sha256_foldl_length _ sha256H0 (by decide)]

theorem intFromBytesBE_take4 (l : List Nat) (h : l.length = 32) :
    intFromBytesBE (l.take 4)
      = l.getD 0 0 * 16777216 + l.getD 1 0 * 65536 + l.getD 2 0 * 256 + l.getD 3 0 := by
  match l, h with
  | a :: b :: c :: d :: rest, _ =>
    show intFromBytesBE [a, b, c, d] = _
    simp only [intFromBytesBE, List.foldl_cons, List.foldl_nil, List.getD_cons_zero,
      List.getD_cons_succ]
    ring

/-- The claim's bucket, written from the spec's words: the first 4 bytes of
`SHA-256("{flagKey}:{userId}")` interpreted as a big-endian unsigned integer
(`b0·2^24 + b1·2^16 + b2·2^8 + b3`), reduced modulo 100. -/
def rolloutBucketSpec (flagKey userId : String) : Nat :=
  let d := sha256Bytes (strUtf8 (flagKey ++ ":" ++ userId))
  (d.getD 0 0 * 16777216 + d.getD 1 0 * 65536 + d.getD 2 0 * 256 + d.getD 3 0) % 100

theorem lookupKey_evaluate_all (rules : List (String × FlagRule)) (user : Option UserContext)
    (key : String) (r : FlagRule) (h : lookupKey rules key = some r) :
    lookupKey (evaluate_all_flags rules user) key = some (evaluate_flag r user) := by
  induction rules with
  | nil => cases h
  | cons p rest ih =>
    obtain ⟨k1, r1⟩ := p
    by_cases hk : k1 = key
    · simp only [lookupKey, if_pos hk, Option.some.injEq] at h
      simp [evaluate_all_flags, lookupKey, hk, h]
    · simp only [lookupKey, if_neg hk] at h
      simpa [evaluate_all_flags, lookupKey, hk] using ih h

/-- Claim C2: for every flag key, user ID and percentage, the rollout
decision of `_is_in_rollout` is `true` iff the first 4 bytes of
`SHA-256("{flagKey}:{userId}")`, read as a big-endian unsigned integer and
reduced mod 100, are strictly below the percentage; the bucket is below 100;
and evaluation is deterministic: the embedding is a pure function, and every
lookup through `evaluate_all_flags` over the same rule set yields exactly the
boolean `evaluate_flag` determines for that (rule, user). -/
theorem is_in_rollout_hash_formula (k u : String) (p : Int) :
    (is_in_rollout k u p = decide ((rolloutBucketSpec k u : Int) < p)) ∧
    rolloutBucketSpec k u < 100 ∧
    (∀ (rules : List (String × FlagRule)) (user : Option UserContext) (key : String)
      (r : FlagRule), lookupKey rules key = some r →
        lookupKey (evaluate_all_flags rules user) key = some (evaluate_flag r user)) := by
  refine ⟨?_, ?_, fun rules user key r h => lookupKey_evaluate_all rules user key r h⟩
  · rw [is_in_rollout, rolloutBucketSpec,
      intFromBytesBE_take4 _ (sha256Bytes_length (strUtf8 (k ++ ":" ++ u)))]
  · exact Nat.mod_lt _ (by decide)

/-- Witness for C2 at a concrete point: for flag `"test-flag"` and user
`"user-1"` the bucket is 49, so a 50% rollout admits the user and a 10%
rollout does not; the formula and the evaluator agree. -/
theorem is_in_rollout_hash_formula_witness :
    rolloutBucketSpec "test-flag" "user-1" = 49 ∧
    is_in_rollout "test-flag" "user-1" 50 = true ∧
    is_in_rollout "test-flag" "user-1" 10 = false ∧
    lookupKey (evaluate_all_flags [("test-flag", ⟨"test-flag", true, 50, [], []⟩)]
        (some ⟨"user-1", none, []⟩)) "test-flag"
      = some (evaluate_flag ⟨"test-flag", true, 50, [], []⟩ (some ⟨"user-1", none, []⟩)) := by
  have h50 := is_in_rollout_hash_formula "test-flag" "user-1" 50
  have h10 := is_in_rollout_hash_formula "test-flag" "user-1" 10
  have hb : rolloutBucketSpec "test-flag" "user-1" = 49 := by decide
  refine ⟨hb, ?_, ?_, ?_⟩
  · rw [h50.1, hb]
    decide
  · rw [h10.1, hb]
    decide
  · exact h50.2.2 _ _ _ _ (by decide)

/-! ## Claim C1 — the evaluation precedence order. -/

/-- The precedence order of claim C1, written from the spec's words, with
the one amendment its counterexample forces: the target-user allowlist
override fires for a present user whose NON-EMPTY ID is listed (the code's
`if user and user.id and rule.target_users` guard skips the allowlist for an
empty ID).  Everything else is the claim verbatim: disabled → false;
allowlist → true overriding any rollout; otherwise the first enabled
targeting rule whose conditions all match decides by its own rollout
(≥ 100 → true, ≤ 0 → false, else the consistent hash); otherwise the default
rollout with the same rule, a missing or empty user ID making any partial
default rollout false. -/
def evalFlagSpec (r : FlagRule) (user : Option UserContext) : Bool :=
  if !r.enabled then false
  else
    match user with
    | none =>
      if r.rollout ≥ 100 then true
      else if r.rollout ≤ 0 then false
      else false
    | some u =>
      if u.id ≠ "" ∧ u.id ∈ r.target_users then true
      else
        match r.rules.find? (fun tr => tr.enabled && matches_rule tr u) with
        | some tr =>
          if tr.rollout ≥ 100 then true
          else if tr.rollout ≤ 0 then false
          else is_in_rollout r.key u.id tr.rollout
        | none =>
          if r.rollout ≥ 100 then true
          else if r.rollout ≤ 0 then false
          else if u.id = "" then false
          else is_in_rollout r.key u.id r.rollout


/-- Counterexample to claim C1 as stated: an enabled flag with 0% rollout
whose target-user allowlist is `[""]`, evaluated for a user whose ID `""` is
in that allowlist, yields `false` — the claim's allowlist clause ("a user
whose ID is in the flag's target-user allowlist returns true, overriding even
a 0% rollout") demands `true`. -/
theorem evaluate_flag_allowlist_counterexample :
    (FlagRule.mk "f" true 0 [""] []).enabled = true ∧
    "" ∈ (FlagRule.mk "f" true 0 [""] []).target_users ∧
    (UserContext.mk "" none []).id = "" ∧
    evaluate_flag (FlagRule.mk "f" true 0 [""] []) (some (UserContext.mk "" none []))
      = false := by
  refine ⟨rfl, by decide, rfl, by decide⟩

/-- Claim C1 (amended): `evaluate_flag` follows exactly the spec's precedence
order — disabled → false; allowlist membership of a present, non-empty user
ID → true; otherwise the first enabled, fully-matching targeting rule's
rollout decides (≥ 100 → true, ≤ 0 → false, else the consistent hash on the
flag key and user ID); otherwise the flag's default rollout with the same
100/0/hash rule, where a missing or empty user ID makes a partial default
rollout false. -/
theorem evaluate_flag_precedence (r : FlagRule) (user : Option UserContext) :
    evaluate_flag r user = evalFlagSpec r user := by
  cases user with
  | none => by_cases he : r.enabled <;> simp [evaluate_flag, evalFlagSpec, he]
  | some u =>
    by_cases he : r.enabled
    · by_cases hid : u.id = ""
      · cases hfind : r.rules.find? (fun tr => tr.enabled && matches_rule tr u) with
        | none => simp [evaluate_flag, evalFlagSpec, he, hid, hfind]
        | some tr => simp [evaluate_flag, evalFlagSpec, he, hid, hfind]
      · by_cases hm : u.id ∈ r.target_users
        · have hne : r.target_users ≠ [] := by
            intro h0
            rw [h0] at hm
            simp at hm
          simp [evaluate_flag, evalFlagSpec, he, hid, hm, List.isEmpty_iff, hne]
        · cases hfind : r.rules.find? (fun tr => tr.enabled && matches_rule tr u) with
          | none => simp [evaluate_flag, evalFlagSpec, he, hid, hm, hfind]
          | some tr => simp [evaluate_flag, evalFlagSpec, he, hid, hm, hfind]
    · simp [evaluate_flag, evalFlagSpec, he]

/-- Witness for C1's amended theorem, exercising each precedence stage at
concrete inputs: disabled flag; allowlist override of a 0% rollout;
non-member at 0% rollout; a matching targeting rule's 0% rollout overriding a
100% default; fallthrough to the default for a non-matching rule; and an
empty-ID user on a partial default rollout. -/
theorem evaluate_flag_precedence_witness :
    evaluate_flag ⟨"f", false, 100, ["u1"], []⟩ (some ⟨"u1", none, []⟩) = false ∧
    evaluate_flag ⟨"f", true, 0, ["u1", "u2"], []⟩ (some ⟨"u1", none, []⟩) = true ∧
    evaluate_flag ⟨"f", true, 0, ["u1", "u2"], []⟩ (some ⟨"u9", none, []⟩) = false ∧
    evaluate_flag ⟨"f", true, 100, [],
        [⟨"r1", true, 0, [⟨"plan", "equals", "pro"⟩], none⟩]⟩
      (some ⟨"u1", none, [("plan", "pro")]⟩) = false ∧
    evaluate_flag ⟨"f", true, 100, [],
        [⟨"r1", true, 0, [⟨"plan", "equals", "pro"⟩], none⟩]⟩
      (some ⟨"u1", none, [("plan", "free")]⟩) = true ∧
    evaluate_flag ⟨"f", true, 50, [], []⟩ (some ⟨"", none, []⟩) = false := by
  refine ⟨?_, ?_, ?_, ?_, ?_, ?_⟩
  · exact (evaluate_flag_precedence ⟨"f", false, 100, ["u1"], []⟩
      (some ⟨"u1", none, []⟩)).trans (by decide)
  · exact (evaluate_flag_precedence ⟨"f", true, 0, ["u1", "u2"], []⟩
      (some ⟨"u1", none, []⟩)).trans (by decide)
  · exact (evaluate_flag_precedence ⟨"f", true, 0, ["u1", "u2"], []⟩
      (some ⟨"u9", none, []⟩)).trans (by decide)
  · exact (evaluate_flag_precedence ⟨"f", true, 100, [],
      [⟨"r1", true, 0, [⟨"plan", "equals", "pro"⟩], none⟩]⟩
      (some ⟨"u1", none, [("plan", "pro")]⟩)).trans (by decide)
  · exact (evaluate_flag_precedence ⟨"f", true, 100, [],
      [⟨"r1", true, 0, [⟨"plan", "equals", "pro"⟩], none⟩]⟩
      (some ⟨"u1", none, [("plan", "free")]⟩)).trans (by decide)
  · exact (evaluate_flag_precedence ⟨"f", true, 50, [], []⟩
      (some ⟨"", none, []⟩)).trans (by decide)

/-! ## Claim C8 — the half-open success counter on leaving HalfOpen. -/

/-- The invariant of claim C8: outside HalfOpen the half-open success counter
is zero (so the breaker can only re-enter HalfOpen with a zero count). -/
def CBInv (s : CBState) : Prop := s.state ≠ .halfOpen → s.half_open_successes = 0

/-- Counterexample to claim C8 as stated: drive a breaker (thresholds 3/2,
recovery 100 ms, window 1000 ms) to HalfOpen with one recorded success via
failures at 0/10/20 ms and a success at 120 ms, then call `force_open` at
130 ms: the breaker leaves HalfOpen for Open with `half_open_successes`
still 1, and the next `execute` after the recovery timeout re-enters
HalfOpen carrying that nonzero count — a single probe success then closes
the circuit, bypassing the success threshold of 2. -/
theorem force_open_half_open_counterexample :
    (cbExecute ⟨3, 100, 1000, 2⟩
        ((cbExecute ⟨3, 100, 1000, 2⟩
          ((cbExecute ⟨3, 100, 1000, 2⟩
            ((cbExecute ⟨3, 100, 1000, 2⟩ initialCBState 0
              (Except.error () : Except Unit Unit)).state) 10
            (Except.error () : Except Unit Unit)).state) 20
          (Except.error () : Except Unit Unit)).state) 120
        (Except.ok () : Except Unit Unit)).state
      = ⟨.halfOpen, [0, 10, 20], 20, 1⟩ ∧
    force_open 130 ⟨.halfOpen, [0, 10, 20], 20, 1⟩
      = ⟨.opened, [0, 10, 20], 130, 1⟩ ∧
    (force_open 130 ⟨.halfOpen, [0, 10, 20], 20, 1⟩).state ≠ .halfOpen ∧
    (force_open 130 ⟨.halfOpen, [0, 10, 20], 20, 1⟩).half_open_successes = 1 ∧
    (cbExecute ⟨3, 100, 1000, 2⟩ ⟨.opened, [0, 10, 20], 130, 1⟩ 240
        (Except.ok () : Except Unit Unit)).state.state = .closed := by
  decide

/-- Claim C8 (amended): every `execute` outcome and `force_reset` preserve
the invariant "outside HalfOpen the half-open success counter is 0", and any
`execute`-driven exit from HalfOpen (failure → Open, or reaching the success
threshold → Closed) resets the counter to 0 — but `force_open` does not
reset it, so a `force_open` issued in HalfOpen leaves a nonzero count
behind (the counterexample). -/
theorem half_open_successes_reset (cfg : CircuitBreakerConfig) (s : CBState)
    (now : Int) (op : Except Unit Unit) (hinv : CBInv s) :
    CBInv (cbExecute cfg s now op).state ∧
    CBInv (force_reset s) ∧
    (s.state = .halfOpen → (cbExecute cfg s now op).state.state ≠ .halfOpen →
      (cbExecute cfg s now op).state.half_open_successes = 0) := by
  have hrunInv : ∀ s' : CBState, CBInv s' → CBInv (runThrough cfg s' now op).state := by
    intro s' hinv'
    cases op with
    | ok a =>
      simp only [runThrough, on_success]
      split_ifs with h1 h2
      · simp [cbReset, cleanup_old_failures, transition_to, CBInv]
      · intro hpost
        exact absurd h1 (by simpa [cleanup_old_failures] using hpost)
      · intro hpost
        simpa [cleanup_old_failures] using hinv' h1
    | error e =>
      simp only [runThrough, on_failure]
      split_ifs with h1 h2
      · simp [transition_to, CBInv]
      · have hsucc0 : s'.half_open_successes = 0 := hinv' (by simpa using h1)
        intro hpost
        simpa [cleanup_old_failures, transition_to] using hsucc0
      · have hsucc0 : s'.half_open_successes = 0 := hinv' (by simpa using h1)
        intro hpost
        simpa [cleanup_old_failures] using hsucc0
  refine ⟨?_, by simp [force_reset, cbReset, transition_to, CBInv], ?_⟩
  · rw [cbExecute]
    by_cases hop : s.state = .opened
    · by_cases hres : should_attempt_reset cfg now s = true
      · rw [if_pos hop, if_pos hres]
        have hsucc0 : s.half_open_successes = 0 := hinv (by rw [hop]; intro h; cases h)
        refine hrunInv (transition_to s .halfOpen) ?_
        intro _
        simpa [transition_to] using hsucc0
      · rw [if_pos hop, if_neg hres]
        exact hinv
    · rw [if_neg hop]
      exact hrunInv s hinv
  · intro hho hpost
    have hop : ¬ s.state = .opened := by
      rw [hho]
      intro h
      cases h
    rw [cbExecute, if_neg hop] at hpost ⊢
    cases op with
    | error e => simp [runThrough, on_failure, hho, transition_to]
    | ok a =>
      by_cases hth : s.half_open_successes + 1 ≥ cfg.success_threshold
      · simp [runThrough, on_success, hho, hth, cbReset, transition_to, cleanup_old_failures]
      · exact absurd (by simp [runThrough, on_success, hho, hth, cleanup_old_failures]) hpost

/-- Witness for C8's amended theorem: a HalfOpen breaker with one recorded
success that fails at t = 50 leaves for Open with the counter reset to 0,
and `force_reset` from the same state clears it too. -/
theorem half_open_successes_reset_witness :
    CBInv (cbExecute ⟨3, 100, 1000, 2⟩ ⟨.halfOpen, [0], 0, 1⟩ 50
      (Except.error () : Except Unit Unit)).state ∧
    CBInv (force_reset ⟨.halfOpen, [0], 0, 1⟩) ∧
    (cbExecute ⟨3, 100, 1000, 2⟩ ⟨.halfOpen, [0], 0, 1⟩ 50
      (Except.error () : Except Unit Unit)).state.half_open_successes = 0 := by
  have h := half_open_successes_reset ⟨3, 100, 1000, 2⟩ ⟨.halfOpen, [0], 0, 1⟩ 50
    (Except.error ()) (by intro h; simp at h)
  exact ⟨h.1, h.2.1, h.2.2 rfl (by decide)⟩

/-! ## Claim C3 — the circuit breaker state machine scenario. -/

/-- The claim's configuration: failureThreshold 3, recoveryTimeout 100 ms,
successThreshold 2, over an arbitrary monitoring window `W`. -/
def cbScenarioCfg (W : Int) : CircuitBreakerConfig := ⟨3, 100, W, 2⟩

/-- The breaker state after three consecutive failed `execute` calls at
`t1`, `t2`, `t3` from a fresh breaker. -/
def cbAfterThreeFailures (W t1 t2 t3 : Int) : CBState :=
  (cbExecute (cbScenarioCfg W)
    ((cbExecute (cbScenarioCfg W)
      ((cbExecute (cbScenarioCfg W) initialCBState t1
        (Except.error () : Except Unit Unit)).state) t2
      (Except.error () : Except Unit Unit)).state) t3
    (Except.error () : Except Unit Unit)).state

/-- Claim C3: with failureThreshold 3, recoveryTimeout 100 ms and
successThreshold 2, three consecutive failures (within the monitoring
window) put the breaker in Open; an `execute` before 100 ms have elapsed
since the last failure is rejected with a `CircuitOpenError` carrying the
remaining wait time (`100 − elapsed`), leaving the state untouched and never
invoking the wrapped operation (for ANY operation `op`); an `execute` after
100 ms runs the operation and transitions to HalfOpen (one success
recorded); a second consecutive success returns the breaker to Closed,
clearing the failures and the success counter; a single failure in HalfOpen
instead returns it to Open immediately (counter cleared), having run the
operation. -/
theorem circuit_breaker_scenario (W t1 t2 t3 tA tB tC : Int) (op : Except Unit Unit)
    (hW : 0 < W) (h12 : t1 ≤ t2) (h23 : t2 ≤ t3) (hwin : t3 - W < t1)
    (hA0 : t3 ≤ tA) (hA : tA - t3 < 100) (hB : 100 ≤ tB - t3) :
    cbAfterThreeFailures W t1 t2 t3 = ⟨.opened, [t1, t2, t3], t3, 0⟩ ∧
    cbExecute (cbScenarioCfg W) (cbAfterThreeFailures W t1 t2 t3) tA op
      = ⟨.circuitOpen (100 - (tA - t3)), cbAfterThreeFailures W t1 t2 t3, false⟩ ∧
    (cbExecute (cbScenarioCfg W) (cbAfterThreeFailures W t1 t2 t3) tB
      (Except.ok () : Except Unit Unit)).ran = true ∧
    (cbExecute (cbScenarioCfg W) (cbAfterThreeFailures W t1 t2 t3) tB
      (Except.ok () : Except Unit Unit)).state.state = .halfOpen ∧
    (cbExecute (cbScenarioCfg W) (cbAfterThreeFailures W t1 t2 t3) tB
      (Except.ok () : Except Unit Unit)).state.half_open_successes = 1 ∧
    (cbExecute (cbScenarioCfg W)
      ((cbExecute (cbScenarioCfg W) (cbAfterThreeFailures W t1 t2 t3) tB
        (Except.ok () : Except Unit Unit)).state) tC
      (Except.ok () : Except Unit Unit)).state.state = .closed ∧
    (cbExecute (cbScenarioCfg W)
      ((cbExecute (cbScenarioCfg W) (cbAfterThreeFailures W t1 t2 t3) tB
        (Except.ok () : Except Unit Unit)).state) tC
      (Except.ok () : Except Unit Unit)).state.failures = [] ∧
    (cbExecute (cbScenarioCfg W)
      ((cbExecute (cbScenarioCfg W) (cbAfterThreeFailures W t1 t2 t3) tB
        (Except.ok () : Except Unit Unit)).state) tC
      (Except.ok () : Except Unit Unit)).state.half_open_successes = 0 ∧
    (cbExecute (cbScenarioCfg W)
      ((cbExecute (cbScenarioCfg W) (cbAfterThreeFailures W t1 t2 t3) tB
        (Except.ok () : Except Unit Unit)).state) tC
      (Except.error () : Except Unit Unit)).state.state = .opened ∧
    (cbExecute (cbScenarioCfg W)
      ((cbExecute (cbScenarioCfg W) (cbAfterThreeFailures W t1 t2 t3) tB
        (Except.ok () : Except Unit Unit)).state) tC
      (Except.error () : Except Unit Unit)).state.half_open_successes = 0 ∧
    (cbExecute (cbScenarioCfg W)
      ((cbExecute (cbScenarioCfg W) (cbAfterThreeFailures W t1 t2 t3) tB
        (Except.ok () : Except Unit Unit)).state) tC
      (Except.error () : Except Unit Unit)).ran = true := by
  have ha1 : t1 > t1 - W := by omega
  have h1 : (cbExecute (cbScenarioCfg W) initialCBState t1
      (Except.error () : Except Unit Unit)).state = ⟨.closed, [t1], t1, 0⟩ := by
    simp [cbExecute, initialCBState, runThrough, on_failure, cleanup_old_failures,
      transition_to, cbScenarioCfg, ha1]
  have ha2 : t1 > t2 - W := by omega
  have hb2 : t2 > t2 - W := by omega
  have h2 : (cbExecute (cbScenarioCfg W) ⟨.closed, [t1], t1, 0⟩ t2
      (Except.error () : Except Unit Unit)).state = ⟨.closed, [t1, t2], t2, 0⟩ := by
    simp [cbExecute, runThrough, on_failure, cleanup_old_failures,
      transition_to, cbScenarioCfg, ha2, hb2]
  have ha3 : t1 > t3 - W := by omega
  have hb3 : t2 > t3 - W := by omega
  have hc3 : t3 > t3 - W := by omega
  have h3 : (cbExecute (cbScenarioCfg W) ⟨.closed, [t1, t2], t2, 0⟩ t3
      (Except.error () : Except Unit Unit)).state = ⟨.opened, [t1, t2, t3], t3, 0⟩ := by
    simp [cbExecute, runThrough, on_failure, cleanup_old_failures,
      transition_to, cbScenarioCfg, ha3, hb3, hc3]
  have hs3 : cbAfterThreeFailures W t1 t2 t3 = ⟨.opened, [t1, t2, t3], t3, 0⟩ := by
    rw [cbAfterThreeFailures, h1, h2, h3]
  have hnoA : ¬ ((tA - t3 : Int) ≥ 100) := by omega
  have hrej : cbExecute (cbScenarioCfg W) (⟨.opened, [t1, t2, t3], t3, 0⟩ : CBState) tA op
      = ⟨.circuitOpen (100 - (tA - t3)), ⟨.opened, [t1, t2, t3], t3, 0⟩, false⟩ := by
    simp only [cbExecute, should_attempt_reset, cbScenarioCfg, get_time_until_retry]
    rw [if_pos trivial, if_neg (by simpa using hnoA)]
    rw [max_eq_right (by omega : (0 : Int) ≤ 100 - (tA - t3))]
  have hyesB : (tB - t3 : Int) ≥ 100 := by omega
  have h4 : cbExecute (cbScenarioCfg W) (⟨.opened, [t1, t2, t3], t3, 0⟩ : CBState) tB
      (Except.ok () : Except Unit Unit)
      = ⟨.ok (), ⟨.halfOpen, [t1, t2, t3].filter (fun t => decide (t > tB - W)), t3, 1⟩,
          true⟩ := by
    simp only [cbExecute, should_attempt_reset, cbScenarioCfg]
    rw [if_pos trivial, if_pos (by simpa using hyesB)]
    simp [runThrough, on_success, transition_to, cleanup_old_failures, cbScenarioCfg]
  have h5 : ∀ s' : CBState, s'.state = .halfOpen → s'.half_open_successes = 1 →
      (cbExecute (cbScenarioCfg W) s' tC (Except.ok () : Except Unit Unit)).state
        = ⟨.closed, [], s'.last_failure_time, 0⟩ := by
    intro s' hst hsc
    have hno : ¬ s'.state = .opened := by
      rw [hst]
      intro h
      cases h
    simp [cbExecute, hno, runThrough, on_success, hst, hsc, cbReset, transition_to,
      cleanup_old_failures, cbScenarioCfg]
  have h6 : ∀ s' : CBState, s'.state = .halfOpen →
      (cbExecute (cbScenarioCfg W) s' tC (Except.error () : Except Unit Unit))
        = ⟨.err (), ⟨.opened, s'.failures ++ [tC], tC, 0⟩, true⟩ := by
    intro s' hst
    have hno : ¬ s'.state = .opened := by
      rw [hst]
      intro h
      cases h
    simp [cbExecute, hno, runThrough, on_failure, hst, transition_to, cbScenarioCfg]
  rw [hs3, hrej, h4]
  refine ⟨rfl, rfl, rfl, rfl, rfl, ?_, ?_, ?_, ?_, ?_, ?_⟩
  · rw [h5 _ rfl rfl]
  · rw [h5 _ rfl rfl]
  · rw [h5 _ rfl rfl]
  · rw [h6 _ rfl]
  · rw [h6 _ rfl]
  · rw [h6 _ rfl]

/-- Witness for C3 at the tests' own timings: window 1000 ms, failures at
0/10/20 ms, a rejected call at 50 ms (remaining wait 70 ms), recovery probe
at 120 ms, second event at 130 ms. -/
theorem circuit_breaker_scenario_witness :
    cbAfterThreeFailures 1000 0 10 20 = ⟨.opened, [0, 10, 20], 20, 0⟩ ∧
    cbExecute (cbScenarioCfg 1000) (cbAfterThreeFailures 1000 0 10 20) 50
      (Except.ok () : Except Unit Unit)
      = ⟨.circuitOpen 70, cbAfterThreeFailures 1000 0 10 20, false⟩ ∧
    (cbExecute (cbScenarioCfg 1000) (cbAfterThreeFailures 1000 0 10 20) 120
      (Except.ok () : Except Unit Unit)).state.state = .halfOpen ∧
    (cbExecute (cbScenarioCfg 1000)
      ((cbExecute (cbScenarioCfg 1000) (cbAfterThreeFailures 1000 0 10 20) 120
        (Except.ok () : Except Unit Unit)).state) 130
      (Except.ok () : Except Unit Unit)).state.state = .closed ∧
    (cbExecute (cbScenarioCfg 1000)
      ((cbExecute (cbScenarioCfg 1000) (cbAfterThreeFailures 1000 0 10 20) 120
        (Except.ok () : Except Unit Unit)).state) 130
      (Except.error () : Except Unit Unit)).state.state = .opened := by
  have h := circuit_breaker_scenario 1000 0 10 20 50 120 130 (Except.ok ())
    (by decide) (by decide) (by decide) (by decide) (by decide) (by decide) (by decide)
  exact ⟨h.1, h.2.1, h.2.2.2.1, h.2.2.2.2.2.1, h.2.2.2.2.2.2.2.2.1⟩

/-! ## Claim C4 — the fetch pipeline's failure handling. -/

/-- Test for the classified `error` event. -/
def isErrorEv : ClientEvent → Bool
  | .errorEv _ => true
  | _ => false

theorem update_flags_no_error (st : ClientState) (f : List (String × Bool)) :
    ∀ ev ∈ (update_flags st f).2, isErrorEv ev = false := by
  intro ev hev
  have : (update_flags st f).2
      = f.filterMap
          (fun p =>
            if lookupKey st.flags p.1 ≠ some p.2 then
              some (ClientEvent.flagChanged p.1 p.2 (lookupKey st.flags p.1))
            else none)
        ++ [ClientEvent.flagsUpdated f] := rfl
  rw [this] at hev
  rcases List.mem_append.mp hev with h | h
  · rcases List.mem_filterMap.mp h with ⟨p, -, hfp⟩
    by_cases hc : lookupKey st.flags p.1 ≠ some p.2
    · rw [if_pos hc] at hfp
      cases hfp
      rfl
    · rw [if_neg hc] at hfp
      cases hfp
  · rcases List.mem_singleton.mp h with rfl
    rfl

theorem use_cached_fallback_no_error (ccfg : CacheConfig) (st : ClientState) (now : Int) :
    ∀ ev ∈ (use_cached_fallback ccfg st now).2, isErrorEv ev = false := by
  intro ev hev
  rw [use_cached_fallback] at hev
  cases hres : (cacheGet ccfg st.cache now "flags").1 with
  | none =>
    rw [hres] at hev
    cases hev
  | some cached =>
    rw [hres] at hev
    rcases List.mem_append.mp hev with h | h
    · exact update_flags_no_error _ _ ev h
    · by_cases hs : cached.stale
      · rw [if_pos hs] at h
        rcases List.mem_singleton.mp h with rfl
        rfl
      · rw [if_neg hs] at h
        cases h

theorem use_cached_fallback_flags (ccfg : CacheConfig) (st : ClientState) (now : Int) :
    (∀ entry, lookupKey st.cache "flags" = some entry →
      ((now - entry.timestamp) * 1000 < ccfg.stale_ttl_ms →
        (use_cached_fallback ccfg st now).1.flags = entry.value) ∧
      ((now - entry.timestamp) * 1000 ≥ ccfg.stale_ttl_ms →
        (now - entry.timestamp) * 1000 ≥ ccfg.ttl_ms →
        (use_cached_fallback ccfg st now).1.flags = st.flags)) ∧
    (lookupKey st.cache "flags" = none →
      (use_cached_fallback ccfg st now).1.flags = st.flags) := by
  constructor
  · intro entry hentry
    constructor
    · intro hage
      by_cases hfresh : (now - entry.timestamp) * 1000 < ccfg.ttl_ms
      · simp [use_cached_fallback, cacheGet, hentry, hfresh, update_flags]
      · simp [use_cached_fallback, cacheGet, hentry, hfresh, hage, update_flags]
    · intro hage hage2
      have h1 : ¬ (now - entry.timestamp) * 1000 < ccfg.ttl_ms := not_lt.mpr hage2
      have h2 : ¬ (now - entry.timestamp) * 1000 < ccfg.stale_ttl_ms := not_lt.mpr hage
      simp [use_cached_fallback, cacheGet, hentry, h1, h2]
  · intro hnone
    simp [use_cached_fallback, cacheGet, hnone]

theorem cbExecute_error_of_allowing (cfg : CircuitBreakerConfig) (s : CBState) (now : Int)
    (e : PyError) (h : is_allowing_requests cfg s now = true) :
    ∃ s', cbExecute cfg s now
        (Except.error e : Except PyError (Option (List (String × Bool))))
      = ⟨.err e, s', true⟩ := by
  by_cases hop : s.state = .opened
  · have hres : should_attempt_reset cfg now s = true := by
      rw [is_allowing_requests, hop] at h
      exact h
    rw [cbExecute, if_pos hop, if_pos hres]
    exact ⟨_, rfl⟩
  · rw [cbExecute, if_neg hop]
    exact ⟨_, rfl⟩

/-- Counterexample to claim C4 as stated: a circuit-open rejection (breaker
Open 1 s after its last failure, recovery 30 s) falls back to the fresh
cached flag set — the in-memory flags do get updated — but NO classified
error event is emitted (the code only logs on this path), where the claim
requires one for every failure including circuit-open rejection. -/
theorem fetch_flags_circuit_open_counterexample :
    is_allowing_requests ⟨5, 30000, 60000, 3⟩ ⟨.opened, [199000], 199000, 0⟩ (200 * 1000)
      = false ∧
    (fetch_flags ⟨5, 30000, 60000, 3⟩ ⟨100000, 500000⟩
        ⟨[("a", false)], [("flags", ⟨[("a", true)], 180, false⟩)],
          ⟨.opened, [199000], 199000, 0⟩⟩
        200 (Except.ok none)).1.flags = [("a", true)] ∧
    (fetch_flags ⟨5, 30000, 60000, 3⟩ ⟨100000, 500000⟩
        ⟨[("a", false)], [("flags", ⟨[("a", true)], 180, false⟩)],
          ⟨.opened, [199000], 199000, 0⟩⟩
        200 (Except.ok none)).2 ≠ [] ∧
    ((fetch_flags ⟨5, 30000, 60000, 3⟩ ⟨100000, 500000⟩
        ⟨[("a", false)], [("flags", ⟨[("a", true)], 180, false⟩)],
          ⟨.opened, [199000], 199000, 0⟩⟩
        200 (Except.ok none)).2.all (fun ev => !isErrorEv ev)) = true := by
  decide

/-- Claim C4 (amended): no failure of the fetch pipeline raises to the
caller (every branch of `_fetch_flags` returns normally, both `except`
clauses included) and every failure falls back to the best available cached
flag set, updating the in-memory flags when a fresh or stale entry exists;
an operation error (e.g. retry exhaustion) additionally emits the classified
error event first, while a circuit-open rejection falls back silently — it
emits no error event (the code only logs there). -/
theorem fetch_flags_failure_fallback (cbcfg : CircuitBreakerConfig) (ccfg : CacheConfig)
    (st : ClientState) (now : Int) (e : PyError) :
    (is_allowing_requests cbcfg st.breaker (now * 1000) = true →
      ((fetch_flags cbcfg ccfg st now (Except.error e)).2.head?
          = some (ClientEvent.errorEv (classify_error e none)) ∧
       (∀ ev ∈ (fetch_flags cbcfg ccfg st now (Except.error e)).2.tail,
          isErrorEv ev = false) ∧
       (∀ entry, lookupKey st.cache "flags" = some entry →
          (now - entry.timestamp) * 1000 < ccfg.stale_ttl_ms →
          (fetch_flags cbcfg ccfg st now (Except.error e)).1.flags = entry.value) ∧
       (lookupKey st.cache "flags" = none →
          (fetch_flags cbcfg ccfg st now (Except.error e)).1.flags = st.flags))) ∧
    (is_allowing_requests cbcfg st.breaker (now * 1000) = false →
      ∀ net : Except PyError (Option (List (String × Bool))),
        fetch_flags cbcfg ccfg st now net = use_cached_fallback ccfg st now ∧
        (∀ ev ∈ (fetch_flags cbcfg ccfg st now net).2, isErrorEv ev = false) ∧
        (∀ entry, lookupKey st.cache "flags" = some entry →
          (now - entry.timestamp) * 1000 < ccfg.stale_ttl_ms →
          (fetch_flags cbcfg ccfg st now net).1.flags = entry.value) ∧
        (lookupKey st.cache "flags" = none →
          (fetch_flags cbcfg ccfg st now net).1.flags = st.flags)) := by
  constructor
  · intro hallow
    obtain ⟨s', hex⟩ := cbExecute_error_of_allowing cbcfg st.breaker (now * 1000) e hallow
    have hfetch : fetch_flags cbcfg ccfg st now (Except.error e)
        = ((use_cached_fallback ccfg { st with breaker := s' } now).1,
           ClientEvent.errorEv (classify_error e none)
             :: (use_cached_fallback ccfg { st with breaker := s' } now).2) := by
      rw [fetch_flags, hallow]
      simp only [Bool.not_true, Bool.false_eq_true, if_false, hex]
    rw [hfetch]
    refine ⟨rfl, ?_, ?_, ?_⟩
    · intro ev hev
      exact use_cached_fallback_no_error ccfg { st with breaker := s' } now ev hev
    · intro entry hentry hage
      exact ((use_cached_fallback_flags ccfg { st with breaker := s' } now).1 entry
        hentry).1 hage
    · intro hnone
      exact (use_cached_fallback_flags ccfg { st with breaker := s' } now).2 hnone
  · intro hblock net
    have hfetch : fetch_flags cbcfg ccfg st now net = use_cached_fallback ccfg st now := by
      rw [fetch_flags, hblock]
      simp
    rw [hfetch]
    exact ⟨rfl, use_cached_fallback_no_error ccfg st now,
      fun entry hentry hage =>
        ((use_cached_fallback_flags ccfg st now).1 entry hentry).1 hage,
      (use_cached_fallback_flags ccfg st now).2⟩

/-- Witness for C4's amended theorem: through a closed breaker, a network
error at t = 200 s over a stale-but-usable cache entry from t = 50 s
(ttl 100 s, staleTtl 500 s) emits the classified network error event first
and falls back to the cached flags; with an empty cache the flags stay
untouched. -/
theorem fetch_flags_failure_fallback_witness :
    (fetch_flags ⟨5, 30000, 60000, 3⟩ ⟨100000, 500000⟩
        ⟨[("a", false)], [("flags", ⟨[("a", true)], 50, false⟩)], initialCBState⟩
        200 (Except.error (PyError.generic "connection refused"))).2.head?
      = some (ClientEvent.errorEv
          (classify_error (PyError.generic "connection refused") none)) ∧
    (fetch_flags ⟨5, 30000, 60000, 3⟩ ⟨100000, 500000⟩
        ⟨[("a", false)], [("flags", ⟨[("a", true)], 50, false⟩)], initialCBState⟩
        200 (Except.error (PyError.generic "connection refused"))).1.flags
      = [("a", true)] ∧
    (fetch_flags ⟨5, 30000, 60000, 3⟩ ⟨100000, 500000⟩
        ⟨[("a", false)], [], initialCBState⟩
        200 (Except.error (PyError.generic "connection refused"))).1.flags
      = [("a", false)] := by
  have h1 := fetch_flags_failure_fallback ⟨5, 30000, 60000, 3⟩ ⟨100000, 500000⟩
    ⟨[("a", false)], [("flags", ⟨[("a", true)], 50, false⟩)], initialCBState⟩
    200 (PyError.generic "connection refused")
  have h2 := fetch_flags_failure_fallback ⟨5, 30000, 60000, 3⟩ ⟨100000, 500000⟩
    ⟨[("a", false)], [], initialCBState⟩
    200 (PyError.generic "connection refused")
  exact ⟨(h1.1 (by decide)).1,
    (h1.1 (by decide)).2.2.1 ⟨[("a", true)], 50, false⟩ (by decide) (by decide),
    (h2.1 (by decide)).2.2.2 (by decide)⟩

/-! ## Claim C5 — refresh vs. the request deduplicator. -/

/-- Counterexample to claim C5 as stated: the Python client's `refresh()` is
`_fetch_flags` directly — no `RequestDeduplicator` exists in `RollgateClient`
— so two overlapping `refresh()` calls (interleaved begin/begin, both before
either completes) EACH start an underlying fetch through the circuit
breaker: two executions, not the single deduplicated one the claim
promises.  `clientRefresh` is definitionally the raw pipeline. -/
theorem refresh_no_dedup_counterexample :
    clientRefresh ⟨5, 30000, 60000, 3⟩ ⟨100000, 500000⟩ ⟨[], [], initialCBState⟩ 100
        (Except.ok none)
      = fetch_flags ⟨5, 30000, 60000, 3⟩ ⟨100000, 500000⟩ ⟨[], [], initialCBState⟩ 100
        (Except.ok none) ∧
    (fetch_begin ⟨5, 30000, 60000, 3⟩ ⟨100000, 500000⟩ ⟨[], [], initialCBState⟩ 100).ran
      = true ∧
    (fetch_begin ⟨5, 30000, 60000, 3⟩ ⟨100000, 500000⟩
        (fetch_begin ⟨5, 30000, 60000, 3⟩ ⟨100000, 500000⟩ ⟨[], [], initialCBState⟩
          100).st 100).ran = true := by
  exact ⟨rfl, by decide, by decide⟩

/-- Claim C5 (amended): the single-flight behavior the claim describes is
real, but it lives in `RequestDeduplicator.dedupe` alone — the client's
`refresh()` never consults it.  For the deduplicator itself: three callers
arriving for one key while the first caller's slot is inflight (within the
TTL, nothing completed in between) produce exactly ONE invocation of the
underlying operation, all three await the same slot, and on its resolution
every one of them receives that single execution's value; the statistics
record 3 requests of which 2 were served by deduplication; and a caller
arriving AFTER the completion starts a fresh execution. -/
theorem dedupe_single_flight (k : String) (c1 c2 c3 c4 : Nat) (t1 t2 t3 t4 : Int)
    (v : Int) (ttl : Int) (h2 : (t2 - t1) * 1000 ≤ ttl) (h3 : (t3 - t1) * 1000 ≤ ttl) :
    dedupStartedFor (dedupRun ⟨true, ttl⟩
      [DedupEv.arrive c1 k t1, DedupEv.arrive c2 k t2, DedupEv.arrive c3 k t3,
       DedupEv.complete k 0 v]) k = 1 ∧
    lookupKey (dedupRun ⟨true, ttl⟩
      [DedupEv.arrive c1 k t1, DedupEv.arrive c2 k t2, DedupEv.arrive c3 k t3,
       DedupEv.complete k 0 v]).joined c1 = some 0 ∧
    lookupKey (dedupRun ⟨true, ttl⟩
      [DedupEv.arrive c1 k t1, DedupEv.arrive c2 k t2, DedupEv.arrive c3 k t3,
       DedupEv.complete k 0 v]).joined c2 = some 0 ∧
    lookupKey (dedupRun ⟨true, ttl⟩
      [DedupEv.arrive c1 k t1, DedupEv.arrive c2 k t2, DedupEv.arrive c3 k t3,
       DedupEv.complete k 0 v]).joined c3 = some 0 ∧
    dedupReceived (dedupRun ⟨true, ttl⟩
      [DedupEv.arrive c1 k t1, DedupEv.arrive c2 k t2, DedupEv.arrive c3 k t3,
       DedupEv.complete k 0 v]) c1 = some v ∧
    dedupReceived (dedupRun ⟨true, ttl⟩
      [DedupEv.arrive c1 k t1, DedupEv.arrive c2 k t2, DedupEv.arrive c3 k t3,
       DedupEv.complete k 0 v]) c2 = some v ∧
    dedupReceived (dedupRun ⟨true, ttl⟩
      [DedupEv.arrive c1 k t1, DedupEv.arrive c2 k t2, DedupEv.arrive c3 k t3,
       DedupEv.complete k 0 v]) c3 = some v ∧
    (dedupRun ⟨true, ttl⟩
      [DedupEv.arrive c1 k t1, DedupEv.arrive c2 k t2, DedupEv.arrive c3 k t3,
       DedupEv.complete k 0 v]).total_requests = 3 ∧
    (dedupRun ⟨true, ttl⟩
      [DedupEv.arrive c1 k t1, DedupEv.arrive c2 k t2, DedupEv.arrive c3 k t3,
       DedupEv.complete k 0 v]).deduplicated_requests = 2 ∧
    dedupStartedFor (dedupRun ⟨true, ttl⟩
      [DedupEv.arrive c1 k t1, DedupEv.arrive c2 k t2, DedupEv.arrive c3 k t3,
       DedupEv.complete k 0 v, DedupEv.arrive c4 k t4]) k = 2 := by
  have hk2 : ¬ ((t2 - t1) * 1000 > ttl) := not_lt.mpr h2
  have hk3 : ¬ ((t3 - t1) * 1000 > ttl) := not_lt.mpr h3
  have hs1 : dedupStep ⟨true, ttl⟩ initialDedupState (DedupEv.arrive c1 k t1)
      = ⟨[⟨k, 0, t1⟩], 1, [(k, 0)], [(c1, 0)], [], 1, 0⟩ := by
    simp [dedupStep, initialDedupState]
  have hs2 : dedupStep ⟨true, ttl⟩ ⟨[⟨k, 0, t1⟩], 1, [(k, 0)], [(c1, 0)], [], 1, 0⟩
      (DedupEv.arrive c2 k t2)
      = ⟨[⟨k, 0, t1⟩], 1, [(k, 0)], [(c1, 0), (c2, 0)], [], 2, 1⟩ := by
    simp [dedupStep, hk2]
  have hs3 : dedupStep ⟨true, ttl⟩ ⟨[⟨k, 0, t1⟩], 1, [(k, 0)], [(c1, 0), (c2, 0)], [], 2, 1⟩
      (DedupEv.arrive c3 k t3)
      = ⟨[⟨k, 0, t1⟩], 1, [(k, 0)], [(c1, 0), (c2, 0), (c3, 0)], [], 3, 2⟩ := by
    simp [dedupStep, hk3]
  have hs4 : dedupStep ⟨true, ttl⟩
      ⟨[⟨k, 0, t1⟩], 1, [(k, 0)], [(c1, 0), (c2, 0), (c3, 0)], [], 3, 2⟩
      (DedupEv.complete k 0 v)
      = ⟨[], 1, [(k, 0)], [(c1, 0), (c2, 0), (c3, 0)], [(0, v)], 3, 2⟩ := by
    simp [dedupStep]
  have hrun : dedupRun ⟨true, ttl⟩
      [DedupEv.arrive c1 k t1, DedupEv.arrive c2 k t2, DedupEv.arrive c3 k t3,
       DedupEv.complete k 0 v]
      = ⟨[], 1, [(k, 0)], [(c1, 0), (c2, 0), (c3, 0)], [(0, v)], 3, 2⟩ := by
    rw [dedupRun, List.foldl_cons, hs1, List.foldl_cons, hs2, List.foldl_cons, hs3,
      List.foldl_cons, hs4, List.foldl_nil]
  have hs5 : dedupStep ⟨true, ttl⟩
      ⟨[], 1, [(k, 0)], [(c1, 0), (c2, 0), (c3, 0)], [(0, v)], 3, 2⟩
      (DedupEv.arrive c4 k t4)
      = ⟨[⟨k, 1, t4⟩], 2, [(k, 0), (k, 1)], [(c1, 0), (c2, 0), (c3, 0), (c4, 1)],
          [(0, v)], 4, 2⟩ := by
    simp [dedupStep]
  have hrun5 : dedupRun ⟨true, ttl⟩
      [DedupEv.arrive c1 k t1, DedupEv.arrive c2 k t2, DedupEv.arrive c3 k t3,
       DedupEv.complete k 0 v, DedupEv.arrive c4 k t4]
      = ⟨[⟨k, 1, t4⟩], 2, [(k, 0), (k, 1)], [(c1, 0), (c2, 0), (c3, 0), (c4, 1)],
          [(0, v)], 4, 2⟩ := by
    rw [dedupRun, List.foldl_cons, hs1, List.foldl_cons, hs2, List.foldl_cons, hs3,
      List.foldl_cons, hs4, List.foldl_cons, hs5, List.foldl_nil]
  rw [hrun, hrun5]
  refine ⟨by simp [dedupStartedFor], ?_, ?_, ?_, ?_, ?_, ?_, rfl, rfl,
    by simp [dedupStartedFor]⟩
  · by_cases h : c1 = c1
    · simp [lookupKey]
    · exact absurd rfl h
  · by_cases h : c1 = c2
    · simp [lookupKey, h]
    · simp [lookupKey, h]
  · by_cases h : c1 = c3 <;> by_cases h' : c2 = c3 <;> simp [lookupKey, h, h']
  · simp [dedupReceived, lookupKey]
  · by_cases h : c1 = c2 <;> simp [dedupReceived, lookupKey, h]
  · by_cases h : c1 = c3 <;> by_cases h' : c2 = c3 <;> simp [dedupReceived, lookupKey, h, h']

/-- Witness for C5's amended theorem: three concurrent callers 1, 2, 3 for
key `"flags"` at t = 0/1/2 s with a 5000 ms TTL share one execution (slot 0)
and all receive its value 7; a fourth caller after completion triggers a
second execution. -/
theorem dedupe_single_flight_witness :
    dedupStartedFor (dedupRun ⟨true, 5000⟩
      [DedupEv.arrive 1 "flags" 0, DedupEv.arrive 2 "flags" 1, DedupEv.arrive 3 "flags" 2,
       DedupEv.complete "flags" 0 7]) "flags" = 1 ∧
    dedupReceived (dedupRun ⟨true, 5000⟩
      [DedupEv.arrive 1 "flags" 0, DedupEv.arrive 2 "flags" 1, DedupEv.arrive 3 "flags" 2,
       DedupEv.complete "flags" 0 7]) 1 = some 7 ∧
    dedupReceived (dedupRun ⟨true, 5000⟩
      [DedupEv.arrive 1 "flags" 0, DedupEv.arrive 2 "flags" 1, DedupEv.arrive 3 "flags" 2,
       DedupEv.complete "flags" 0 7]) 2 = some 7 ∧
    dedupReceived (dedupRun ⟨true, 5000⟩
      [DedupEv.arrive 1 "flags" 0, DedupEv.arrive 2 "flags" 1, DedupEv.arrive 3 "flags" 2,
       DedupEv.complete "flags" 0 7]) 3 = some 7 ∧
    dedupStartedFor (dedupRun ⟨true, 5000⟩
      [DedupEv.arrive 1 "flags" 0, DedupEv.arrive 2 "flags" 1, DedupEv.arrive 3 "flags" 2,
       DedupEv.complete "flags" 0 7, DedupEv.arrive 4 "flags" 3]) "flags" = 2 := by
  have h := dedupe_single_flight "flags" 1 2 3 4 0 1 2 3 7 5000 (by decide) (by decide)
  exact ⟨h.1, h.2.2.2.2.1, h.2.2.2.2.2.1, h.2.2.2.2.2.2.1, h.2.2.2.2.2.2.2.2.2⟩

end Rollgate
